import Mathlib

/-!
# OTA server handlers (`src/main/otaserver.c`)

A shallow embedding of the three HTTP handlers of the OTA web server:
`ota_post_handler`, `reboot_post_handler` and `coredump_get_handler`.

Every handler is a pure function from an *environment* (the answers the
ESP-IDF calls give: partition table, socket reads, flash operations) to a
`Run`: the list of external calls the handler makes, in order, each with the
answer it received, together with the way the handler ends.

Logging that does not mark a failure branch (`ESP_LOGI`, `ESP_LOGW`,
`ESP_LOGD`) and the power-management lock macros (empty unless
`CONFIG_PM_ENABLE` is set) have no effect on control flow and are left out.
-/

namespace OtaServer

/-! ## Constants of `otaserver.h` and of the ESP-IDF headers -/

/-- A byte of an image or of a flash region; its value is never inspected. -/
abbrev Byte := Nat

def OTA_BUFFSIZE : Nat := 1024

def OTA_EVENT_IDLE : Nat := 0
def OTA_EVENT_BEGIN : Nat := 1
def OTA_EVENT_SUCCESS : Nat := 2
def OTA_EVENT_FAILED : Nat := 3

def ESP_OK : Int := 0
def ESP_FAIL : Int := -1

def ESP_PARTITION_TYPE_APP : Nat := 0
def ESP_PARTITION_TYPE_DATA : Nat := 1
def ESP_PARTITION_SUBTYPE_APP_FACTORY : Nat := 0
def ESP_PARTITION_SUBTYPE_APP_OTA_0 : Nat := 16
def ESP_PARTITION_SUBTYPE_APP_OTA_1 : Nat := 17
def ESP_PARTITION_SUBTYPE_DATA_COREDUMP : Nat := 3
def ESP_PARTITION_SUBTYPE_ANY : Nat := 255

/-- The fields of `esp_partition_t` the handlers read. -/
structure esp_partition_t where
  type : Nat
  subtype : Nat
  address : Nat
  size : Nat
  label : String
deriving DecidableEq, Repr

/-- Modelled from the spec: `esp_partition_find_first` is an ESP-IDF library
function, absent from the sources; section 4.1 describes the lookup as
selecting by class and subclass, or by label, and returning the first match or
"not found". `ESP_PARTITION_SUBTYPE_ANY` matches every subtype and a missing
label (`NULL`) matches every label. -/
def esp_partition_find_first (table : List esp_partition_t) (type subtype : Nat)
    (label : Option String) : Option esp_partition_t :=
  table.find? fun q =>
    decide (q.type = type) &&
    (decide (subtype = ESP_PARTITION_SUBTYPE_ANY) || decide (q.subtype = subtype)) &&
    (match label with
     | none => true
     | some l => decide (q.label = l))

/-! ## Calls and runs -/

/-- What one call of `httpd_req_recv` returns: `HTTPD_SOCK_ERR_TIMEOUT`, any
other negative value, or `data_read = bs.length >= 0` bytes placed in the
buffer. -/
inductive RecvResult where
  | timeout
  | error
  | data (bs : List Byte)
deriving DecidableEq, Repr

/-- The HTTP status lines the handlers set. -/
inductive HttpStatus where
  | HTTPD_200
  | HTTPD_202
  | HTTPD_400
  | HTTPD_500
deriving DecidableEq, Repr

/-- The `ESP_LOGE` sites of the handlers. -/
inductive LogSite where
  | data_read_error
  | connection_closed
  | header_too_small
  | begin_failed
  | end_failed
  | set_boot_failed
  | coredump_not_found
  | mmap_failed
  | http_write_error
deriving DecidableEq, Repr

/-- One external call made by a handler, with the answer it got. -/
inductive Call where
  /-- The call `(*otaserver_event_cb)(e)`. -/
  | event (e : Nat)
  | httpd_req_recv (want : Nat) (res : RecvResult)
  | esp_log_error (site : LogSite)
  /-- The result is the handle written to `update_handle`, or `none` on error. -/
  | esp_ota_begin (p : esp_partition_t) (res : Option Nat)
  | esp_ota_write (handle : Nat) (bs : List Byte) (ok : Bool)
  | esp_ota_abort (handle : Nat)
  | esp_ota_end (handle : Nat) (ok : Bool)
  | esp_ota_set_boot_partition (p : esp_partition_t) (ok : Bool)
  | httpd_resp_set_status (s : HttpStatus)
  | httpd_resp_set_type
  | httpd_resp_send
  /-- The call `xTaskCreate(esp_restart_task, ...)`: the delayed restart. -/
  | xTaskCreate_restart
  | esp_partition_mmap (p : esp_partition_t) (ok : Bool)
  | spi_flash_munmap
  | httpd_resp_send_chunk (bs : List Byte) (ok : Bool)
deriving DecidableEq, Repr

/-- How a handler ends: it returns an `esp_err_t`, or the process stops at a
failed `assert` or a memory fault. -/
inductive Outcome where
  | returned (err : Int)
  | fault
deriving DecidableEq, Repr

structure Run where
  trace : List Call
  outcome : Outcome
deriving DecidableEq, Repr

/-- The guarded callback `if (otaserver_event_cb != NULL) (*otaserver_event_cb)(e)`. -/
def notify (cb : Bool) (e : Nat) : List Call :=
  if cb then [Call.event e] else []

/-! ## `ota_post_handler` -/

/-- The environment of one run of `ota_post_handler`. -/
structure OtaEnv where
  /-- Whether `otaserver_event_cb != NULL`. -/
  cb : Bool
  table : List esp_partition_t
  /-- The answer of `esp_ota_get_running_partition` (only logged). -/
  running : esp_partition_t
  /-- The field `req->content_len`. -/
  content_len : Nat
  /-- What the successive `httpd_req_recv` calls deliver; once the list is
  used up the peer has closed the connection and every read returns 0. -/
  recvs : List RecvResult
  /-- The value `sizeof(esp_image_header_t) + sizeof(esp_image_segment_header_t)
  + sizeof(esp_app_desc_t)`, from headers outside the sources. -/
  header_size : Nat
  /-- The handle `esp_ota_begin` stores, or `none` when it fails. -/
  begin_result : Option Nat
  /-- Whether the `i`-th `esp_ota_write` call (from 0), given these bytes,
  returns `ESP_OK`. -/
  write_ok : Nat → List Byte → Bool
  end_ok : Bool
  set_boot_ok : Bool

/-- The transport never returns more than the `want` bytes asked for. -/
def httpd_req_recv (want : Nat) : RecvResult → RecvResult
  | .data bs => .data (bs.take want)
  | r => r

/-- The local variables of `ota_post_handler` that the loop updates, and the
number of `esp_ota_write` calls made so far. -/
structure LoopState where
  binary_file_length : Nat
  image_header_was_checked : Bool
  update_handle : Nat
  writes : Nat
deriving DecidableEq, Repr

/-- The common end of every failing branch: status line, empty body, `Failed`. -/
def ota_fail (cb : Bool) (s : HttpStatus) : List Call :=
  [Call.httpd_resp_set_status s, Call.httpd_resp_send] ++ notify cb OTA_EVENT_FAILED

/-- The conditional `if (image_header_was_checked) esp_ota_abort(update_handle)`. -/
def abort_if_checked (st : LoopState) : List Call :=
  if st.image_header_was_checked then [Call.esp_ota_abort st.update_handle] else []

/-- Lines 225-242: forward the chunk to `esp_ota_write`. -/
def ota_write_chunk (env : OtaEnv) (st : LoopState) (bs : List Byte) :
    List Call × Option LoopState :=
  if env.write_ok st.writes bs then
    ([Call.esp_ota_write st.update_handle bs true],
      some { st with binary_file_length := st.binary_file_length + bs.length,
                     writes := st.writes + 1 })
  else
    ([Call.esp_ota_write st.update_handle bs false, Call.esp_ota_abort st.update_handle]
        ++ ota_fail env.cb .HTTPD_500, none)

/-- The length asked of `httpd_req_recv`:
`MIN(req->content_len - binary_file_length, OTA_BUFFSIZE)`. -/
def recv_size (env : OtaEnv) (st : LoopState) : Nat :=
  min (env.content_len - st.binary_file_length) OTA_BUFFSIZE

/-- One pass through the body of the `while` loop (lines 144-259), given what
the read delivers. The result is the calls made and the state for the next
pass, or `none` when the handler has returned `ESP_FAIL`. -/
def ota_loop_body (env : OtaEnv) (p : esp_partition_t) (st : LoopState) (r : RecvResult) :
    List Call × Option LoopState :=
  let want := recv_size env st
  let pre := notify env.cb OTA_EVENT_IDLE ++ [Call.httpd_req_recv want (httpd_req_recv want r)]
  match httpd_req_recv want r with
  | .timeout => (pre, some st)
  | .error =>
    (pre ++ [Call.esp_log_error .data_read_error] ++ abort_if_checked st
      ++ ota_fail env.cb .HTTPD_400, none)
  | .data bs =>
    if 0 < bs.length then
      if !st.image_header_was_checked then
        if bs.length > env.header_size then
          match env.begin_result with
          | none =>
            (pre ++ [Call.esp_ota_begin p none, Call.esp_log_error .begin_failed]
              ++ ota_fail env.cb .HTTPD_400, none)
          | some h =>
            let r := ota_write_chunk env
              { st with image_header_was_checked := true, update_handle := h } bs
            (pre ++ [Call.esp_ota_begin p (some h)] ++ r.1, r.2)
        else
          (pre ++ [Call.esp_log_error .header_too_small, Call.esp_ota_abort st.update_handle]
            ++ ota_fail env.cb .HTTPD_400, none)
      else
        let r := ota_write_chunk env st bs
        (pre ++ r.1, r.2)
    else
      (pre ++ [Call.esp_log_error .connection_closed] ++ abort_if_checked st
        ++ ota_fail env.cb .HTTPD_400, none)

/-- The `while (binary_file_length < req->content_len)` loop. The result is
the calls made and the state at the normal exit of the loop, or `none` when a
pass returned `ESP_FAIL`. -/
def ota_loop (env : OtaEnv) (p : esp_partition_t) :
    List RecvResult → LoopState → List Call × Option LoopState
  | [], st =>
    if st.binary_file_length < env.content_len then
      ota_loop_body env p st (.data [])
    else ([], some st)
  | r :: rest, st =>
    if st.binary_file_length < env.content_len then
      match ota_loop_body env p st r with
      | (cs, none) => (cs, none)
      | (cs, some st') =>
        let k := ota_loop env p rest st'
        (cs ++ k.1, k.2)
    else ([], some st)

/-- Lines 261-316: what follows the loop. -/
def ota_finish (env : OtaEnv) (p : esp_partition_t) (st : LoopState) : List Call × Int :=
  let t_end := notify env.cb OTA_EVENT_IDLE ++ [Call.esp_ota_end st.update_handle env.end_ok]
  if env.end_ok then
    let t_boot := notify env.cb OTA_EVENT_IDLE
      ++ [Call.esp_ota_set_boot_partition p env.set_boot_ok]
    if env.set_boot_ok then
      (t_end ++ t_boot ++ [Call.httpd_resp_set_status .HTTPD_202, Call.httpd_resp_send]
        ++ notify env.cb OTA_EVENT_SUCCESS ++ [Call.xTaskCreate_restart], ESP_OK)
    else
      (t_end ++ t_boot ++ [Call.esp_log_error .set_boot_failed]
        ++ ota_fail env.cb .HTTPD_500, ESP_FAIL)
  else
    (t_end ++ [Call.esp_log_error .end_failed] ++ ota_fail env.cb .HTTPD_400, ESP_FAIL)

/-- The values of the locals when the loop is first reached (lines 116, 140, 141). -/
def ota_init : LoopState :=
  { binary_file_length := 0, image_header_was_checked := false, update_handle := 0, writes := 0 }

/-- The handler `ota_post_handler`. -/
def ota_post_handler (env : OtaEnv) : Run :=
  let t_begin := notify env.cb OTA_EVENT_BEGIN
  match esp_partition_find_first env.table ESP_PARTITION_TYPE_APP
      ESP_PARTITION_SUBTYPE_APP_OTA_0 none with
  | none => ⟨t_begin, .fault⟩
  | some p =>
    match ota_loop env p env.recvs ota_init with
    | (t_loop, none) => ⟨t_begin ++ t_loop, .returned ESP_FAIL⟩
    | (t_loop, some st) =>
      let f := ota_finish env p st
      ⟨t_begin ++ t_loop ++ f.1, .returned f.2⟩

/-! ## `reboot_post_handler` -/

/-- The environment of one run of `reboot_post_handler`. -/
structure RebootEnv where
  cb : Bool
  table : List esp_partition_t
  set_boot_ok : Bool

/-- The handler `reboot_post_handler`. The event code `OTA_EVENT_REBOOT` it
passes to the callback is not among the macros of `otaserver.h`, so it is an
argument here. -/
def reboot_post_handler (OTA_EVENT_REBOOT : Nat) (env : RebootEnv) : Run :=
  match esp_partition_find_first env.table ESP_PARTITION_TYPE_APP
      ESP_PARTITION_SUBTYPE_APP_OTA_0 none with
  | none => ⟨[], .fault⟩
  | some p =>
    if env.set_boot_ok then
      ⟨[Call.esp_ota_set_boot_partition p true, Call.httpd_resp_set_status .HTTPD_202,
          Call.httpd_resp_send] ++ notify env.cb OTA_EVENT_REBOOT ++ [Call.xTaskCreate_restart],
        .returned ESP_OK⟩
    else
      ⟨[Call.esp_ota_set_boot_partition p false, Call.esp_log_error .set_boot_failed]
          ++ ota_fail env.cb .HTTPD_500, .returned ESP_FAIL⟩

/-! ## `coredump_get_handler` -/

/-- The environment of one run of `coredump_get_handler`. -/
structure CoredumpEnv where
  cb : Bool
  table : List esp_partition_t
  /-- The answer of `esp_partition_mmap`: `none` on error, otherwise the bytes
  readable from `map_ptr` on. -/
  mmap_result : Option (List Byte)
  /-- Whether the `httpd_resp_send_chunk` call made when `data_read` has the
  given value returns `ESP_OK`. -/
  send_ok : Nat → Bool

/-- Conversion of a `size_t` value to `ssize_t`; both are 32 bits wide on the
ESP32 targets of this firmware. -/
def to_ssize_t (u : Nat) : Int :=
  if u % 2 ^ 32 < 2 ^ 31 then ((u % 2 ^ 32 : Nat) : Int) else ((u % 2 ^ 32 : Nat) : Int) - 2 ^ 32

/-- Lines 424-428: the length of the next chunk, a `ssize_t`. -/
def coredump_chunk_size (size data_read : Nat) : Int :=
  let chunk_size := to_ssize_t (size - data_read)
  if chunk_size > (OTA_BUFFSIZE : Int) then (OTA_BUFFSIZE : Int) else chunk_size

/-- The streaming loop of `coredump_get_handler` (lines 423-446), from the
current value of `data_read`. The result is the calls made and `none` at the
normal exit of the loop, or the way the handler ended inside the loop. A
`chunk_size` that is not positive is passed to `memcpy` as a length of at
least `2 ^ 31` bytes for a buffer of `OTA_BUFFSIZE + 1`: a memory fault. -/
def coredump_loop (env : CoredumpEnv) (mem : List Byte) (size : Nat) (data_read : Nat) :
    List Call × Option Outcome :=
  if data_read < size then
    if 0 < coredump_chunk_size size data_read then
      let chunk_size := (coredump_chunk_size size data_read).toNat
      let chunk := (mem.drop data_read).take chunk_size
      if env.send_ok data_read then
        let k := coredump_loop env mem size (data_read + chunk_size)
        ([Call.httpd_resp_send_chunk chunk true] ++ notify env.cb OTA_EVENT_IDLE ++ k.1, k.2)
      else
        ([Call.httpd_resp_send_chunk chunk false, Call.esp_log_error .http_write_error,
          Call.spi_flash_munmap], some (.returned ESP_FAIL))
    else ([], some .fault)
  else ([], none)
termination_by size - data_read
decreasing_by
  simp_wf
  omega

/-- The handler `coredump_get_handler`. The last `httpd_resp_send_chunk(req,
NULL, 0)` ends the chunked response; its result is not looked at. -/
def coredump_get_handler (env : CoredumpEnv) : Run :=
  let t_idle := notify env.cb OTA_EVENT_IDLE
  match esp_partition_find_first env.table ESP_PARTITION_TYPE_DATA
      ESP_PARTITION_SUBTYPE_ANY (some "coredump") with
  | none =>
    ⟨t_idle ++ [Call.esp_log_error .coredump_not_found, Call.httpd_resp_set_status .HTTPD_500,
        Call.httpd_resp_send], .returned ESP_FAIL⟩
  | some p =>
    match env.mmap_result with
    | none =>
      ⟨t_idle ++ [Call.esp_partition_mmap p false, Call.esp_log_error .mmap_failed,
          Call.httpd_resp_set_status .HTTPD_500, Call.httpd_resp_send], .returned ESP_FAIL⟩
    | some mem =>
      let t_map := t_idle ++ [Call.esp_partition_mmap p true,
        Call.httpd_resp_set_status .HTTPD_200, Call.httpd_resp_set_type]
      match coredump_loop env mem p.size 0 with
      | (t_loop, some o) => ⟨t_map ++ t_loop, o⟩
      | (t_loop, none) =>
        ⟨t_map ++ t_loop ++ [Call.httpd_resp_send_chunk [] (env.send_ok p.size),
            Call.spi_flash_munmap], .returned ESP_OK⟩

/-! ## Reading a trace -/

/-- The byte arguments of the `esp_ota_write` calls, in call order. -/
def written_chunks : List Call → List (List Byte)
  | [] => []
  | .esp_ota_write _ bs _ :: t => bs :: written_chunks t
  | _ :: t => written_chunks t

/-- The results of the `esp_ota_write` calls, in call order. -/
def write_results : List Call → List Bool
  | [] => []
  | .esp_ota_write _ _ ok :: t => ok :: write_results t
  | _ :: t => write_results t

/-- The byte arguments of the `httpd_resp_send_chunk` calls, in call order. -/
def sent_chunks : List Call → List (List Byte)
  | [] => []
  | .httpd_resp_send_chunk bs _ :: t => bs :: sent_chunks t
  | _ :: t => sent_chunks t

def Call.is_abort : Call → Bool
  | .esp_ota_abort _ => true
  | _ => false

def Call.is_begin : Call → Bool
  | .esp_ota_begin _ _ => true
  | _ => false

def Call.is_write : Call → Bool
  | .esp_ota_write _ _ _ => true
  | _ => false

def Call.is_end : Call → Bool
  | .esp_ota_end _ _ => true
  | _ => false

def Call.is_set_boot : Call → Bool
  | .esp_ota_set_boot_partition _ _ => true
  | _ => false

def Call.is_mmap : Call → Bool
  | .esp_partition_mmap _ _ => true
  | _ => false

def Call.is_munmap : Call → Bool
  | .spi_flash_munmap => true
  | _ => false

def Call.is_send_chunk : Call → Bool
  | .httpd_resp_send_chunk _ _ => true
  | _ => false

/-- A read, a header check, a begin, a write or a finalize that failed. -/
def Call.is_session_failure : Call → Bool
  | .httpd_req_recv _ .error => true
  | .httpd_req_recv _ (.data []) => true
  | .esp_log_error .header_too_small => true
  | .esp_ota_begin _ none => true
  | .esp_ota_write _ _ false => true
  | .esp_ota_end _ false => true
  | _ => false

/-- A read that returned an error other than a timeout, or no byte at all. -/
def Call.is_failed_read : Call → Bool
  | .httpd_req_recv _ .error => true
  | .httpd_req_recv _ (.data []) => true
  | _ => false

/-- The callback call with `OTA_EVENT_FAILED`. -/
def Call.is_failed_event : Call → Bool
  | .event e => decide (e = OTA_EVENT_FAILED)
  | _ => false

/-- The calls of a pass of the streaming loop that went through: a chunk that
was sent, and the `Idle` event. -/
def Call.is_streamed : Call → Bool
  | .httpd_resp_send_chunk _ true => true
  | .event e => decide (e = OTA_EVENT_IDLE)
  | _ => false

/-- A `httpd_resp_send_chunk` call that returned an error. -/
def Call.is_failed_send : Call → Bool
  | .httpd_resp_send_chunk _ false => true
  | _ => false

/-- The event codes passed to the observer, in call order. -/
def events_of : List Call → List Nat
  | [] => []
  | .event e :: t => e :: events_of t
  | _ :: t => events_of t

/-- The chunks a stream delivers, in order. -/
def chunks_of : List RecvResult → List (List Byte)
  | [] => []
  | .data bs :: t => bs :: chunks_of t
  | _ :: t => chunks_of t

/-- The calls of the passes of the loop that went through without a failure:
`Idle` events, reads that timed out or delivered bytes, at most one successful
`esp_ota_begin` (none once the header was checked) on partition `p`, and
successful writes, each made with the header checked. The flag says whether
the header was checked before the first of these calls. -/
def body_ok (p : esp_partition_t) : Bool → List Call → Bool
  | _, [] => true
  | o, .event e :: t => decide (e = OTA_EVENT_IDLE) && body_ok p o t
  | o, .httpd_req_recv _ .timeout :: t => body_ok p o t
  | o, .httpd_req_recv _ (.data bs) :: t => decide (0 < bs.length) && body_ok p o t
  | o, .esp_ota_begin q (some _) :: t => !o && decide (q = p) && body_ok p true t
  | o, .esp_ota_write _ _ true :: t => o && body_ok p o t
  | _, _ :: _ => false

/-- The calls that can occur in a pass of the loop that went through. -/
def Call.benign : Call → Bool
  | .event e => decide (e = OTA_EVENT_IDLE)
  | .httpd_req_recv _ .timeout => true
  | .httpd_req_recv _ (.data bs) => decide (0 < bs.length)
  | .esp_ota_begin _ (some _) => true
  | .esp_ota_write _ _ true => true
  | _ => false

/-- Whether a successful `esp_ota_begin` is among the calls. -/
def has_begun : List Call → Bool
  | [] => false
  | .esp_ota_begin _ (some _) :: _ => true
  | _ :: t => has_begun t

/-- The calls of the pass of the loop in which the handler returns `ESP_FAIL`,
from the call or check that failed on. The flag says whether the header was
checked when that pass began its failing step. -/
inductive FailTail (cb : Bool) (p : esp_partition_t) (o : Bool) : List Call → Prop where
  | read_error (want h : Nat) :
    FailTail cb p o ([Call.httpd_req_recv want .error, Call.esp_log_error .data_read_error]
      ++ (if o then [Call.esp_ota_abort h] else []) ++ ota_fail cb .HTTPD_400)
  | closed (want h : Nat) :
    FailTail cb p o ([Call.httpd_req_recv want (.data []), Call.esp_log_error .connection_closed]
      ++ (if o then [Call.esp_ota_abort h] else []) ++ ota_fail cb .HTTPD_400)
  | header_too_small (h : Nat) : o = false →
    FailTail cb p o ([Call.esp_log_error .header_too_small, Call.esp_ota_abort h]
      ++ ota_fail cb .HTTPD_400)
  | begin_failed : o = false →
    FailTail cb p o ([Call.esp_ota_begin p none, Call.esp_log_error .begin_failed]
      ++ ota_fail cb .HTTPD_400)
  | write_failed (h : Nat) (bs : List Byte) : o = true →
    FailTail cb p o ([Call.esp_ota_write h bs false, Call.esp_ota_abort h]
      ++ ota_fail cb .HTTPD_500)

/-! ## Concrete environments -/

/-- The application slot `ota_0`. -/
def part_app : esp_partition_t :=
  { type := ESP_PARTITION_TYPE_APP, subtype := ESP_PARTITION_SUBTYPE_APP_OTA_0,
    address := 0x10000, size := 0x250000, label := "app" }

/-- The slot `ota_1`, from which the OTA loader itself runs. -/
def part_loader : esp_partition_t :=
  { type := ESP_PARTITION_TYPE_APP, subtype := ESP_PARTITION_SUBTYPE_APP_OTA_1,
    address := 0x260000, size := 0xA0000, label := "flashApp" }

def part_coredump : esp_partition_t :=
  { type := ESP_PARTITION_TYPE_DATA, subtype := ESP_PARTITION_SUBTYPE_DATA_COREDUMP,
    address := 0x3F0000, size := 0x10000, label := "coredump" }

def sample_table : List esp_partition_t := [part_app, part_loader, part_coredump]

/-- The header size of ESP-IDF images: 24 + 8 + 256 bytes. -/
def IDF_HEADER_SIZE : Nat := 24 + 8 + 256

/-- A 600-byte body delivered after one timeout as two chunks of 300 bytes;
every flash operation succeeds. -/
def env_two_chunks : OtaEnv :=
  { cb := true, table := sample_table, running := part_loader, content_len := 600,
    recvs := [.timeout, .data (List.replicate 300 0), .data (List.replicate 300 0)],
    header_size := IDF_HEADER_SIZE, begin_result := some 1,
    write_ok := fun _ _ => true, end_ok := true, set_boot_ok := true }

/-- The same 600-byte body delivered in chunks of one byte. -/
def env_one_byte_chunks : OtaEnv :=
  { env_two_chunks with recvs := List.replicate 600 (.data [0]) }

/-- A 600-byte body whose first chunk, after a timeout, has 100 bytes. -/
def env_short_first_chunk : OtaEnv :=
  { env_two_chunks with
    recvs := [.timeout, .data (List.replicate 100 0), .data (List.replicate 500 0)] }

/-- A 600-byte body in three chunks; the second `esp_ota_write` call fails. -/
def env_second_write_fails : OtaEnv :=
  { env_two_chunks with
    recvs := [.data (List.replicate 300 0), .data (List.replicate 200 0),
      .data (List.replicate 100 0)],
    write_ok := fun i _ => decide (i ≠ 1) }

/-- A body declared as 5000000 bytes; after two chunks of 1000 bytes the read
fails with a socket error. -/
def env_read_error : OtaEnv :=
  { env_two_chunks with
    content_len := 5000000,
    recvs := [.data (List.replicate 1000 0), .data (List.replicate 1000 0), .error] }

/-- The calls of the run on `env_read_error` before the failing read. -/
def read_error_pre : List Call :=
  [.event OTA_EVENT_BEGIN,
   .event OTA_EVENT_IDLE, .httpd_req_recv 1024 (.data (List.replicate 1000 0)),
   .esp_ota_begin part_app (some 1), .esp_ota_write 1 (List.replicate 1000 0) true,
   .event OTA_EVENT_IDLE, .httpd_req_recv 1024 (.data (List.replicate 1000 0)),
   .esp_ota_write 1 (List.replicate 1000 0) true,
   .event OTA_EVENT_IDLE]

/-- The calls of the run on `env_read_error` after the failing read. -/
def read_error_post : List Call :=
  [.esp_log_error .data_read_error, .esp_ota_abort 1, .httpd_resp_set_status .HTTPD_400,
   .httpd_resp_send, .event OTA_EVENT_FAILED]

/-- A readback request on a device whose partition table has no coredump
partition. -/
def env_no_coredump : CoredumpEnv :=
  { cb := true, table := [part_app, part_loader], mmap_result := none,
    send_ok := fun _ => true }

/-- An update whose image does not pass the validation of `esp_ota_end`. -/
def env_end_fails : OtaEnv :=
  { env_two_chunks with end_ok := false }

/-- An update request that declares an empty body; `esp_ota_end` refuses the
handle 0, which no `esp_ota_begin` has opened. -/
def env_zero_length : OtaEnv :=
  { env_two_chunks with content_len := 0, recvs := [], end_ok := false }

/-- An update request served while the device runs from the slot `ota_0`
itself; `esp_ota_begin` refuses. -/
def env_running_is_target : OtaEnv :=
  { env_two_chunks with running := part_app, begin_result := none }

/-- A coredump partition of 2500 bytes and its content. -/
def part_small_coredump : esp_partition_t :=
  { part_coredump with size := 2500 }

def small_region : List Byte := List.replicate 2500 7

/-- A readback of `part_small_coredump`; every send succeeds. -/
def env_small_coredump : CoredumpEnv :=
  { cb := true, table := [part_app, part_loader, part_small_coredump],
    mmap_result := some small_region, send_ok := fun _ => true }

/-- A readback of `part_small_coredump` in which the second send fails. -/
def env_send_fails : CoredumpEnv :=
  { env_small_coredump with send_ok := fun off => decide (off ≠ 1024) }

/-- A reboot request; the boot partition is set. -/
def env_reboot_ok : RebootEnv :=
  { cb := true, table := sample_table, set_boot_ok := true }

/-- A 600-byte body whose first chunk has exactly the 288 bytes of the image
header and application descriptor. -/
def env_first_chunk_is_header : OtaEnv :=
  { env_two_chunks with
    recvs := [.data (List.replicate 288 0), .data (List.replicate 312 0)] }

/-- The chunks of scenario A: a body of 300000 bytes read through the buffer
of 1024 bytes, 292 full chunks and a last one of 992 bytes. -/
def scenario_a_chunks : List (List Byte) :=
  List.replicate 292 (List.replicate 1024 0) ++ [List.replicate 992 0]

/-- Scenario A: 300000 bytes, the header in the first chunk, every flash
operation succeeding. -/
def env_scenario_a : OtaEnv :=
  { env_two_chunks with content_len := 300000, recvs := scenario_a_chunks.map .data }

/-! ## The shape of the update loop -/

theorem body_ok_append (p : esp_partition_t) (b b' : List Call) (o : Bool) :
    body_ok p o (b ++ b') = (body_ok p o b && body_ok p (o || has_begun b) b') := by
  induction b generalizing o with
  | nil => simp [body_ok, has_begun]
  | cons c t ih =>
    cases c with
    | httpd_req_recv w r => cases r <;> simp [body_ok, has_begun, ih, Bool.and_assoc]
    | esp_ota_begin q r => cases r <;> simp [body_ok, has_begun, ih, Bool.and_assoc]
    | esp_ota_write h bs ok => cases ok <;> simp [body_ok, has_begun, ih, Bool.and_assoc]
    | _ => simp [body_ok, has_begun, ih, Bool.and_assoc]

theorem has_begun_append (b b' : List Call) :
    has_begun (b ++ b') = (has_begun b || has_begun b') := by
  induction b with
  | nil => simp [has_begun]
  | cons c t ih =>
    cases c with
    | esp_ota_begin q r => cases r <;> simp [has_begun, ih]
    | _ => simp [has_begun, ih]

theorem body_ok_notify (p : esp_partition_t) (cb o : Bool) :
    body_ok p o (notify cb OTA_EVENT_IDLE) = true := by
  cases cb <;> simp [notify, body_ok]

theorem has_begun_notify (cb : Bool) (e : Nat) : has_begun (notify cb e) = false := by
  cases cb <;> simp [notify, has_begun]


theorem ota_write_chunk_shape (env : OtaEnv) (p : esp_partition_t) (st : LoopState)
    (bs : List Byte) :
    ∃ body tail, (ota_write_chunk env st bs).1 = body ++ tail ∧
      body_ok p true body = true ∧ has_begun body = false ∧
      (∀ st', (ota_write_chunk env st bs).2 = some st' →
        tail = [] ∧ st'.image_header_was_checked = st.image_header_was_checked) ∧
      ((ota_write_chunk env st bs).2 = none → FailTail env.cb p true tail) := by
  unfold ota_write_chunk
  by_cases hw : env.write_ok st.writes bs = true
  · refine ⟨[Call.esp_ota_write st.update_handle bs true], [], ?_, ?_, ?_, ?_, ?_⟩ <;>
      simp [hw, body_ok, has_begun]
  · refine ⟨[], [Call.esp_ota_write st.update_handle bs false,
      Call.esp_ota_abort st.update_handle] ++ ota_fail env.cb .HTTPD_500, ?_, ?_, ?_, ?_, ?_⟩ <;>
      simp [hw, body_ok, has_begun]
    exact FailTail.write_failed _ _ rfl

theorem ota_loop_body_shape (env : OtaEnv) (p : esp_partition_t) (st : LoopState)
    (r : RecvResult) :
    ∃ body tail, (ota_loop_body env p st r).1 = body ++ tail ∧
      body_ok p st.image_header_was_checked body = true ∧
      (∀ st', (ota_loop_body env p st r).2 = some st' →
        tail = [] ∧
        st'.image_header_was_checked = (st.image_header_was_checked || has_begun body)) ∧
      ((ota_loop_body env p st r).2 = none →
        FailTail env.cb p (st.image_header_was_checked || has_begun body) tail) := by
  cases r with
  | timeout =>
    refine ⟨notify env.cb OTA_EVENT_IDLE ++ [Call.httpd_req_recv (recv_size env st) .timeout],
      [], ?_, ?_, ?_, ?_⟩
    · simp [ota_loop_body, httpd_req_recv]
    · simp [body_ok_append, body_ok_notify, body_ok]
    · simp [ota_loop_body, httpd_req_recv, has_begun_append, has_begun_notify, has_begun]
    · simp [ota_loop_body, httpd_req_recv]
  | error =>
    refine ⟨notify env.cb OTA_EVENT_IDLE, [Call.httpd_req_recv (recv_size env st) .error,
      Call.esp_log_error .data_read_error] ++ (if st.image_header_was_checked then
        [Call.esp_ota_abort st.update_handle] else []) ++ ota_fail env.cb .HTTPD_400,
      ?_, ?_, ?_, ?_⟩
    · simp [ota_loop_body, httpd_req_recv, abort_if_checked]
    · exact body_ok_notify _ _ _
    · simp [ota_loop_body, httpd_req_recv]
    · intro _
      simp only [has_begun_notify, Bool.or_false]
      exact FailTail.read_error _ _
  | data bs =>
    simp only [ota_loop_body, httpd_req_recv]
    generalize bs.take (recv_size env st) = cs
    generalize recv_size env st = want
    by_cases hlen : 0 < cs.length
    · simp only [hlen, ↓reduceIte]
      cases hck : st.image_header_was_checked with
      | true =>
        obtain ⟨b, t, hbt, hb, hnb, hsome, hnone⟩ := ota_write_chunk_shape env p st cs
        refine ⟨notify env.cb OTA_EVENT_IDLE ++ [Call.httpd_req_recv want (.data cs)] ++ b, t,
          ?_, ?_, ?_, ?_⟩
        · simp [hbt]
        · simp [body_ok_append, body_ok_notify, body_ok, has_begun_notify, has_begun, hb]
          simpa using hlen
        · intro st' hst'
          have := hsome st' (by simpa using hst')
          simp [this.1, this.2, hck]
        · intro hn
          simpa using hnone (by simpa using hn)
      | false =>
        by_cases hh : cs.length > env.header_size
        · cases hbr : env.begin_result with
          | none =>
            refine ⟨notify env.cb OTA_EVENT_IDLE ++ [Call.httpd_req_recv want (.data cs)],
              [Call.esp_ota_begin p none, Call.esp_log_error .begin_failed]
                ++ ota_fail env.cb .HTTPD_400, ?_, ?_, ?_, ?_⟩
            · simp [hh]
            · simp [body_ok_append, body_ok_notify, body_ok]
              simpa using hlen
            · simp [hh]
            · intro _
              simp only [has_begun_append, has_begun_notify, has_begun, Bool.or_false]
              exact FailTail.begin_failed rfl
          | some h =>
            obtain ⟨b, t, hbt, hb, hnb, hsome, hnone⟩ := ota_write_chunk_shape env p
              { st with image_header_was_checked := true, update_handle := h } cs
            refine ⟨notify env.cb OTA_EVENT_IDLE ++ [Call.httpd_req_recv want (.data cs)]
              ++ [Call.esp_ota_begin p (some h)] ++ b, t, ?_, ?_, ?_, ?_⟩
            · simp [hh, hbt]
            · simp [body_ok_append, body_ok_notify, body_ok, has_begun_notify, has_begun, hb]
              simpa using hlen
            · intro st' hst'
              have := hsome st' (by simpa [hh] using hst')
              simp [this.1, this.2, has_begun_append, has_begun]
            · intro hn
              have := hnone (by simpa [hh] using hn)
              simpa [has_begun_append, has_begun] using this
        · refine ⟨notify env.cb OTA_EVENT_IDLE ++ [Call.httpd_req_recv want (.data cs)],
            [Call.esp_log_error .header_too_small, Call.esp_ota_abort st.update_handle]
              ++ ota_fail env.cb .HTTPD_400, ?_, ?_, ?_, ?_⟩
          · simp [hh]
          · simp [body_ok_append, body_ok_notify, body_ok]
            simpa using hlen
          · simp [hh]
          · intro _
            simp only [has_begun_append, has_begun_notify, has_begun, Bool.or_false]
            exact FailTail.header_too_small _ rfl
    · have h0 : cs = [] := by
        cases cs with
        | nil => rfl
        | cons a l => simp at hlen
      subst h0
      refine ⟨notify env.cb OTA_EVENT_IDLE, [Call.httpd_req_recv want (.data []),
        Call.esp_log_error .connection_closed] ++ (if st.image_header_was_checked then
          [Call.esp_ota_abort st.update_handle] else []) ++ ota_fail env.cb .HTTPD_400,
        ?_, ?_, ?_, ?_⟩
      · simp [abort_if_checked]
      · exact body_ok_notify _ _ _
      · simp
      · intro _
        simp only [has_begun_notify, Bool.or_false]
        exact FailTail.closed _ _

theorem ota_loop_shape (env : OtaEnv) (p : esp_partition_t) (script : List RecvResult) :
    ∀ st : LoopState, ∃ body tail, (ota_loop env p script st).1 = body ++ tail ∧
      body_ok p st.image_header_was_checked body = true ∧
      (∀ st', (ota_loop env p script st).2 = some st' →
        tail = [] ∧
        st'.image_header_was_checked = (st.image_header_was_checked || has_begun body)) ∧
      ((ota_loop env p script st).2 = none →
        FailTail env.cb p (st.image_header_was_checked || has_begun body) tail) := by
  induction script with
  | nil =>
    intro st
    by_cases hlt : st.binary_file_length < env.content_len
    · simpa [ota_loop, hlt] using ota_loop_body_shape env p st (.data [])
    · exact ⟨[], [], by simp [ota_loop, hlt], by simp [body_ok], by simp [ota_loop, hlt, has_begun],
        by simp [ota_loop, hlt]⟩
  | cons r rest ih =>
    intro st
    by_cases hlt : st.binary_file_length < env.content_len
    · obtain ⟨b, t, hbt, hb, hsome, hnone⟩ := ota_loop_body_shape env p st r
      rcases hres : ota_loop_body env p st r with ⟨cs, o⟩
      rw [hres] at hbt hsome hnone
      cases o with
      | none =>
        refine ⟨b, t, ?_, hb, ?_, ?_⟩
        · simpa [ota_loop, hlt, hres] using hbt
        · simp [ota_loop, hlt, hres]
        · intro _
          exact hnone rfl
      | some st' =>
        obtain ⟨ht, hflag⟩ := hsome st' rfl
        obtain ⟨b', t', hbt', hb', hsome', hnone'⟩ := ih st'
        simp only at hbt
        subst ht
        refine ⟨b ++ b', t', ?_, ?_, ?_, ?_⟩
        · simp [ota_loop, hlt, hres, hbt, hbt']
        · rw [body_ok_append, hb, ← hflag, hb']
          rfl
        · intro st'' hst''
          have := hsome' st'' (by simpa [ota_loop, hlt, hres] using hst'')
          simp [this.1, this.2, hflag, has_begun_append, Bool.or_assoc]
        · intro hn
          have := hnone' (by simpa [ota_loop, hlt, hres] using hn)
          simpa [hflag, has_begun_append, Bool.or_assoc] using this
    · exact ⟨[], [], by simp [ota_loop, hlt], by simp [body_ok], by simp [ota_loop, hlt, has_begun],
        by simp [ota_loop, hlt]⟩

theorem body_ok_benign (p : esp_partition_t) (b : List Call) :
    ∀ o : Bool, body_ok p o b = true → ∀ c ∈ b, c.benign = true := by
  induction b with
  | nil => simp
  | cons c t ih =>
    intro o h d hd
    cases c with
    | event e =>
      simp only [body_ok, Bool.and_eq_true] at h
      rcases List.mem_cons.1 hd with rfl | hd
      · simpa [Call.benign] using h.1
      · exact ih o h.2 d hd
    | httpd_req_recv w res =>
      cases res with
      | timeout =>
        rcases List.mem_cons.1 hd with rfl | hd
        · rfl
        · exact ih o (by simpa [body_ok] using h) d hd
      | error => simp [body_ok] at h
      | data bs =>
        simp only [body_ok, Bool.and_eq_true] at h
        rcases List.mem_cons.1 hd with rfl | hd
        · simpa [Call.benign] using h.1
        · exact ih o h.2 d hd
    | esp_ota_begin q r =>
      cases r with
      | none => simp [body_ok] at h
      | some hdl =>
        simp only [body_ok, Bool.and_eq_true] at h
        rcases List.mem_cons.1 hd with rfl | hd
        · rfl
        · exact ih true h.2 d hd
    | esp_ota_write hdl bs ok =>
      cases ok with
      | false => simp [body_ok] at h
      | true =>
        simp only [body_ok, Bool.and_eq_true] at h
        rcases List.mem_cons.1 hd with rfl | hd
        · rfl
        · exact ih o h.2 d hd
    | _ => simp [body_ok] at h

theorem body_ok_begin_partition (p : esp_partition_t) (b : List Call) :
    ∀ o : Bool, body_ok p o b = true → ∀ q r, Call.esp_ota_begin q r ∈ b → q = p := by
  induction b with
  | nil => simp
  | cons c t ih =>
    intro o h q r hq
    cases c with
    | event e =>
      simp only [body_ok, Bool.and_eq_true] at h
      exact ih o h.2 q r (by simpa using hq)
    | httpd_req_recv w res =>
      cases res with
      | timeout => exact ih o (by simpa [body_ok] using h) q r (by simpa using hq)
      | error => simp [body_ok] at h
      | data bs =>
        simp only [body_ok, Bool.and_eq_true] at h
        exact ih o h.2 q r (by simpa using hq)
    | esp_ota_begin q' r' =>
      cases r' with
      | none => simp [body_ok] at h
      | some hd =>
        simp only [body_ok, Bool.and_eq_true, decide_eq_true_eq] at h
        rcases List.mem_cons.1 hq with heq | hq
        · cases heq
          exact h.1.2
        · exact ih true h.2 q r hq
    | esp_ota_write hd bs ok =>
      cases ok with
      | false => simp [body_ok] at h
      | true =>
        simp only [body_ok, Bool.and_eq_true] at h
        exact ih o h.2 q r (by simpa using hq)
    | _ => simp [body_ok] at h

theorem has_begun_iff (b : List Call) :
    has_begun b = true ↔ ∃ q h, Call.esp_ota_begin q (some h) ∈ b := by
  induction b with
  | nil => simp [has_begun]
  | cons c t ih =>
    cases c with
    | esp_ota_begin q r =>
      cases r with
      | none => simp [has_begun, ih]
      | some h => simp [has_begun]; exact ⟨q, h, Or.inl ⟨rfl, rfl⟩⟩
    | _ => simp [has_begun, ih]

theorem body_ok_write_begun (p : esp_partition_t) (b : List Call) :
    ∀ o : Bool, body_ok p o b = true → ∀ h bs ok, Call.esp_ota_write h bs ok ∈ b →
      (o || has_begun b) = true := by
  intro o hb h bs ok hmem
  obtain ⟨b1, b2, rfl⟩ := List.append_of_mem hmem
  rw [body_ok_append] at hb
  simp only [Bool.and_eq_true] at hb
  have h2 := hb.2
  cases ok with
  | false => simp [body_ok] at h2
  | true =>
    simp only [body_ok, Bool.and_eq_true] at h2
    rw [has_begun_append]
    cases ho : o <;> simp_all

theorem split_unique {α : Type} (P : α → Prop) (A C : List α) (x : α) :
    ∀ (pre post : List α) (y : α), (∀ a ∈ A, ¬ P a) → (∀ c ∈ C, ¬ P c) → P y →
      A ++ x :: C = pre ++ y :: post → pre = A ∧ y = x ∧ post = C := by
  induction A with
  | nil =>
    intro pre post y _ hC hy heq
    cases pre with
    | nil =>
      simp only [List.nil_append, List.cons.injEq] at heq
      exact ⟨rfl, heq.1.symm, heq.2.symm⟩
    | cons a pre' =>
      simp only [List.nil_append, List.cons_append, List.cons.injEq] at heq
      exact absurd hy (hC y (by rw [heq.2]; simp))
  | cons a A' ih =>
    intro pre post y hA hC hy heq
    cases pre with
    | nil =>
      simp only [List.nil_append, List.cons_append, List.cons.injEq] at heq
      exact absurd hy (by rw [← heq.1]; exact hA a (by simp))
    | cons b pre' =>
      simp only [List.cons_append, List.cons.injEq] at heq
      obtain ⟨h1, h2, h3⟩ := ih pre' post y (fun c hc => hA c (by simp [hc])) hC hy heq.2
      exact ⟨by rw [h1, heq.1], h2, h3⟩

/-- Every run of `ota_post_handler` has one of three shapes: the partition
lookup fails and the `assert` stops the process; or some passes of the loop go
through and the next one returns `ESP_FAIL`; or the loop is left normally and
the part after the loop decides. -/
theorem ota_post_handler_shape (env : OtaEnv) :
    (esp_partition_find_first env.table ESP_PARTITION_TYPE_APP
        ESP_PARTITION_SUBTYPE_APP_OTA_0 none = none ∧
      ota_post_handler env = ⟨notify env.cb OTA_EVENT_BEGIN, .fault⟩) ∨
    ∃ p body, esp_partition_find_first env.table ESP_PARTITION_TYPE_APP
        ESP_PARTITION_SUBTYPE_APP_OTA_0 none = some p ∧
      body_ok p false body = true ∧
      ((∃ tail, FailTail env.cb p (has_begun body) tail ∧
          ota_post_handler env =
            ⟨notify env.cb OTA_EVENT_BEGIN ++ body ++ tail, .returned ESP_FAIL⟩) ∨
       (∃ st, ota_post_handler env =
          ⟨notify env.cb OTA_EVENT_BEGIN ++ body ++ (ota_finish env p st).1,
            .returned (ota_finish env p st).2⟩)) := by
  cases hp : esp_partition_find_first env.table ESP_PARTITION_TYPE_APP
      ESP_PARTITION_SUBTYPE_APP_OTA_0 none with
  | none => exact Or.inl ⟨rfl, by simp [ota_post_handler, hp]⟩
  | some p =>
    right
    obtain ⟨body, tail, hbt, hb, hsome, hnone⟩ := ota_loop_shape env p env.recvs ota_init
    rcases hres : ota_loop env p env.recvs ota_init with ⟨cs, o⟩
    rw [hres] at hbt hsome hnone
    simp only at hbt
    refine ⟨p, body, rfl, by simpa [ota_init] using hb, ?_⟩
    cases o with
    | none =>
      left
      refine ⟨tail, by simpa [ota_init] using hnone rfl, ?_⟩
      simp [ota_post_handler, hp, hres, hbt]
    | some st =>
      right
      obtain ⟨ht, _⟩ := hsome st rfl
      subst ht
      exact ⟨st, by simp [ota_post_handler, hp, hres, hbt]⟩

theorem mem_notify_iff (cb : Bool) (e : Nat) (c : Call) :
    c ∈ notify cb e ↔ cb = true ∧ c = Call.event e := by
  cases cb <;> simp [notify]

theorem benign_not_failure (c : Call) (h : c.benign = true) : c.is_session_failure = false := by
  cases c with
  | httpd_req_recv w r =>
    cases r with
    | data bs => cases bs <;> simp_all [Call.benign, Call.is_session_failure]
    | _ => simp_all [Call.benign, Call.is_session_failure]
  | esp_ota_begin q r => cases r <;> simp_all [Call.benign, Call.is_session_failure]
  | esp_ota_write hd bs ok => cases ok <;> simp_all [Call.benign, Call.is_session_failure]
  | _ => simp_all [Call.benign, Call.is_session_failure]

theorem benign_not_set_boot (c : Call) (h : c.benign = true) : c.is_set_boot = false := by
  cases c <;> simp_all [Call.benign, Call.is_set_boot]

theorem body_count_set_boot (p : esp_partition_t) (o : Bool) (b : List Call)
    (hb : body_ok p o b = true) : List.countP Call.is_set_boot b = 0 := by
  rw [List.countP_eq_zero]
  intro c hc
  simp [benign_not_set_boot c (body_ok_benign p b o hb c hc)]

theorem tail_count_set_boot (cb : Bool) (p : esp_partition_t) (o : Bool) (t : List Call)
    (ht : FailTail cb p o t) : List.countP Call.is_set_boot t = 0 := by
  rw [List.countP_eq_zero]
  intro c hc
  cases ht <;> cases o <;> cases cb <;>
    simp [ota_fail, notify] at hc <;> rcases hc with h | h | h | h | h | h <;>
    simp_all [Call.is_set_boot]

theorem body_countP_zero (P : Call → Bool) (hP : ∀ c : Call, c.benign = true → P c = false)
    (p : esp_partition_t) (o : Bool) (b : List Call) (hb : body_ok p o b = true) :
    List.countP P b = 0 := by
  rw [List.countP_eq_zero]
  intro c hc
  simp [hP c (body_ok_benign p b o hb c hc)]

theorem body_no_failure (p : esp_partition_t) (o : Bool) (b : List Call)
    (hb : body_ok p o b = true) (c : Call) (hc : c ∈ b) : c.is_session_failure = false :=
  benign_not_failure c (body_ok_benign p b o hb c hc)

/-- C2: in every run of `ota_post_handler`, `esp_ota_set_boot_partition` is
called at most once, and every such call comes after an `esp_ota_end` call of
the same run that returned success; a run that returns `ESP_OK` calls it
exactly once; a run in which a read, the header check, the begin, a write or
the finalize failed never calls it. -/
theorem set_boot_once_after_end (env : OtaEnv) :
    List.countP Call.is_set_boot (ota_post_handler env).trace ≤ 1 ∧
    (∀ pre q ok post,
      (ota_post_handler env).trace = pre ++ Call.esp_ota_set_boot_partition q ok :: post →
      ∃ h, Call.esp_ota_end h true ∈ pre) ∧
    ((ota_post_handler env).outcome = .returned ESP_OK →
      List.countP Call.is_set_boot (ota_post_handler env).trace = 1) ∧
    ((∃ c ∈ (ota_post_handler env).trace, c.is_session_failure = true) →
      List.countP Call.is_set_boot (ota_post_handler env).trace = 0) := by
  have hnotify : ∀ e, List.countP Call.is_set_boot (notify env.cb e) = 0 := by
    intro e
    cases env.cb <;> simp [notify, Call.is_set_boot]
  have hzero : List.countP Call.is_set_boot (ota_post_handler env).trace = 0 →
      ∀ pre q ok post,
        (ota_post_handler env).trace = pre ++ Call.esp_ota_set_boot_partition q ok :: post →
        ∃ h, Call.esp_ota_end h true ∈ pre := by
    intro h0 pre q ok post heq
    rw [heq] at h0
    simp [List.countP_cons, Call.is_set_boot] at h0
  rcases ota_post_handler_shape env with ⟨_, hrun⟩ | ⟨p, body, _, hb, ⟨tail, ht, hrun⟩ | ⟨st, hrun⟩⟩
  · have h0 : List.countP Call.is_set_boot (ota_post_handler env).trace = 0 := by
      simp [hrun, hnotify]
    exact ⟨by omega, hzero h0, by simp [hrun], fun _ => h0⟩
  · have h0 : List.countP Call.is_set_boot (ota_post_handler env).trace = 0 := by
      simp [hrun, hnotify, body_count_set_boot p false body hb,
        tail_count_set_boot _ _ _ _ ht]
    exact ⟨by omega, hzero h0, by simp [hrun, ESP_OK, ESP_FAIL], fun _ => h0⟩
  · cases hend : env.end_ok with
    | false =>
      have h0 : List.countP Call.is_set_boot (ota_post_handler env).trace = 0 := by
        simp [hrun, hnotify, body_count_set_boot p false body hb, ota_finish, hend, ota_fail,
          Call.is_set_boot]
      exact ⟨by omega, hzero h0, by simp [hrun, ota_finish, hend, ESP_OK, ESP_FAIL],
        fun _ => h0⟩
    | true =>
      have hcount : List.countP Call.is_set_boot (ota_post_handler env).trace = 1 := by
        cases hboot : env.set_boot_ok <;>
          simp [hrun, hnotify, body_count_set_boot p false body hb, ota_finish, hend, hboot,
            ota_fail, Call.is_set_boot]
      refine ⟨by omega, ?_, fun _ => hcount, ?_⟩
      · intro pre q ok post heq
        have hshape : ∃ C, (∀ c ∈ C, ¬ (c.is_set_boot = true)) ∧
            (ota_post_handler env).trace =
              (notify env.cb OTA_EVENT_BEGIN ++ body ++ notify env.cb OTA_EVENT_IDLE
                ++ [Call.esp_ota_end st.update_handle true] ++ notify env.cb OTA_EVENT_IDLE)
              ++ Call.esp_ota_set_boot_partition p env.set_boot_ok :: C := by
          cases hboot : env.set_boot_ok
          · refine ⟨[Call.esp_log_error .set_boot_failed] ++ ota_fail env.cb .HTTPD_500, ?_, ?_⟩
            · cases env.cb <;> simp [ota_fail, notify, Call.is_set_boot]
            · simp [hrun, ota_finish, hend, hboot]
          · refine ⟨[Call.httpd_resp_set_status .HTTPD_202, Call.httpd_resp_send]
              ++ notify env.cb OTA_EVENT_SUCCESS ++ [Call.xTaskCreate_restart], ?_, ?_⟩
            · cases env.cb <;> simp [notify, Call.is_set_boot]
            · simp [hrun, ota_finish, hend, hboot]
        obtain ⟨C, hC, htr⟩ := hshape
        rw [htr] at heq
        have hA : ∀ a ∈ notify env.cb OTA_EVENT_BEGIN ++ body ++ notify env.cb OTA_EVENT_IDLE
            ++ [Call.esp_ota_end st.update_handle true] ++ notify env.cb OTA_EVENT_IDLE,
            ¬ (a.is_set_boot = true) := by
          intro a ha
          simp only [List.mem_append, mem_notify_iff, List.mem_singleton] at ha
          rcases ha with (((⟨_, rfl⟩ | ha) | ⟨_, rfl⟩) | rfl) | ⟨_, rfl⟩
          · simp [Call.is_set_boot]
          · simp [benign_not_set_boot a (body_ok_benign p body false hb a ha)]
          · simp [Call.is_set_boot]
          · simp [Call.is_set_boot]
          · simp [Call.is_set_boot]
        obtain ⟨hpre, _, _⟩ := split_unique (fun c => c.is_set_boot = true) _ C _ pre post
          (Call.esp_ota_set_boot_partition q ok) hA hC rfl heq
        exact ⟨st.update_handle, by simp [hpre]⟩
      · rintro ⟨c, hc, hfail⟩
        exfalso
        rw [hrun] at hc
        simp only [List.mem_append, mem_notify_iff] at hc
        rcases hc with (⟨_, rfl⟩ | hc) | hc
        · simp [Call.is_session_failure] at hfail
        · simp [body_no_failure p false body hb c hc] at hfail
        · have hfin : ∀ d ∈ (ota_finish env p st).1, d.is_session_failure = false := by
            cases hboot : env.set_boot_ok <;> cases hcb : env.cb <;>
              simp [ota_finish, hend, hboot, hcb, ota_fail, notify, Call.is_session_failure]
          simp [hfin c hc] at hfail


theorem written_chunks_append (a b : List Call) :
    written_chunks (a ++ b) = written_chunks a ++ written_chunks b := by
  induction a with
  | nil => rfl
  | cons c t ih => cases c <;> simp [written_chunks, ih]

theorem written_chunks_notify (cb : Bool) (e : Nat) : written_chunks (notify cb e) = [] := by
  cases cb <;> simp [notify, written_chunks]

theorem mem_chunks_of (s : List RecvResult) (c : List Byte) :
    c ∈ chunks_of s ↔ RecvResult.data c ∈ s := by
  induction s with
  | nil => simp [chunks_of]
  | cons r t ih => cases r <;> simp [chunks_of, ih]

theorem ota_loop_all_ok (env : OtaEnv) (p : esp_partition_t) (h : Nat)
    (hbegin : env.begin_result = some h) (hwrite : ∀ i bs, env.write_ok i bs = true)
    (script : List RecvResult) :
    ∀ st : LoopState,
      (∀ r ∈ script, r = .timeout ∨
        ∃ bs, r = .data bs ∧ 0 < bs.length ∧ bs.length ≤ OTA_BUFFSIZE) →
      st.binary_file_length + (chunks_of script).flatten.length = env.content_len →
      (st.image_header_was_checked = false →
        ∀ c, (chunks_of script).head? = some c → env.header_size < c.length) →
      (ota_loop env p script st).2.isSome = true ∧
      written_chunks (ota_loop env p script st).1 = chunks_of script := by
  induction script with
  | nil =>
    intro st _ hsum _
    have : ¬ st.binary_file_length < env.content_len := by
      simp [chunks_of] at hsum
      omega
    simp [ota_loop, this, written_chunks, chunks_of]
  | cons r rest ih =>
    intro st hgood hsum hhdr
    have hrest : ∀ r ∈ rest, r = .timeout ∨
        ∃ bs, r = .data bs ∧ 0 < bs.length ∧ bs.length ≤ OTA_BUFFSIZE :=
      fun r hr => hgood r (by simp [hr])
    rcases hgood r (by simp) with rfl | ⟨bs, rfl, hpos, hle⟩
    · simp only [chunks_of] at hsum hhdr ⊢
      by_cases hlt : st.binary_file_length < env.content_len
      · obtain ⟨h1, h2⟩ := ih st hrest hsum hhdr
        simp [ota_loop, hlt, ota_loop_body, httpd_req_recv, h1, h2, written_chunks_append,
          written_chunks_notify, written_chunks]
      · have hnil : chunks_of rest = [] := by
          cases hc : chunks_of rest with
          | nil => rfl
          | cons c cs =>
            exfalso
            have hmem : RecvResult.data c ∈ rest := (mem_chunks_of rest c).1 (by simp [hc])
            rcases hrest _ hmem with hfalse | ⟨bs, hbs, hpos, _⟩
            · cases hfalse
            · cases hbs
              simp [hc] at hsum
              omega
        simp [ota_loop, hlt, written_chunks, hnil]
    · simp only [chunks_of, List.flatten_cons, List.length_append] at hsum
      simp only [chunks_of, List.head?_cons, Option.some.injEq, forall_eq'] at hhdr
      have hlt : st.binary_file_length < env.content_len := by omega
      have htake : bs.take (recv_size env st) = bs := by
        apply List.take_of_length_le
        simp only [recv_size]
        omega
      cases hck : st.image_header_was_checked with
      | true =>
        obtain ⟨h1, h2⟩ := ih ⟨st.binary_file_length + bs.length, true,
          st.update_handle, st.writes + 1⟩ hrest
          (by show st.binary_file_length + bs.length + _ = _; omega) (by simp)
        simp [ota_loop, hlt, ota_loop_body, httpd_req_recv, htake, hpos, hck, ota_write_chunk,
          hwrite, h1, h2, written_chunks_append, written_chunks_notify, written_chunks,
          chunks_of]
      | false =>
        have hh := hhdr hck
        obtain ⟨h1, h2⟩ := ih ⟨st.binary_file_length + bs.length, true, h, st.writes + 1⟩
          hrest (by show st.binary_file_length + bs.length + _ = _; omega) (by simp)
        simp [ota_loop, hlt, ota_loop_body, httpd_req_recv, htake, hpos, hck, hh, hbegin,
          ota_write_chunk, hwrite, h1, h2, written_chunks_append, written_chunks_notify,
          written_chunks, chunks_of]

/-- C1 (as amended): when the stream delivers, between timeouts, non-empty
chunks of at most `OTA_BUFFSIZE` bytes that together are the `content_len`
bytes of the image, the first chunk is longer than the header size, and begin,
every write, finalize and the boot-target call succeed, then
`ota_post_handler` returns `ESP_OK`, the byte arguments of its
`esp_ota_write` calls are exactly the chunks in order, and their concatenation
is the image. -/
theorem ota_commits_image (env : OtaEnv) (p : esp_partition_t) (h : Nat) (image : List Byte)
    (hp : esp_partition_find_first env.table ESP_PARTITION_TYPE_APP
      ESP_PARTITION_SUBTYPE_APP_OTA_0 none = some p)
    (hchunks : ∀ r ∈ env.recvs, r = .timeout ∨
      ∃ bs, r = .data bs ∧ 0 < bs.length ∧ bs.length ≤ OTA_BUFFSIZE)
    (himage : (chunks_of env.recvs).flatten = image)
    (hlen : image.length = env.content_len)
    (hhdr : ∀ c, (chunks_of env.recvs).head? = some c → env.header_size < c.length)
    (hbegin : env.begin_result = some h) (hwrite : ∀ i bs, env.write_ok i bs = true)
    (hend : env.end_ok = true) (hboot : env.set_boot_ok = true) :
    (ota_post_handler env).outcome = .returned ESP_OK ∧
    written_chunks (ota_post_handler env).trace = chunks_of env.recvs ∧
    (written_chunks (ota_post_handler env).trace).flatten = image := by
  obtain ⟨h1, h2⟩ := ota_loop_all_ok env p h hbegin hwrite env.recvs ota_init hchunks
    (by simp [ota_init, himage, hlen]) (fun _ => hhdr)
  rcases hres : ota_loop env p env.recvs ota_init with ⟨cs, o⟩
  rw [hres] at h1 h2
  cases o with
  | none => simp at h1
  | some st =>
    simp only at h2
    have hw : written_chunks (ota_post_handler env).trace = chunks_of env.recvs := by
      simp [ota_post_handler, hp, hres, ota_finish, hend, hboot, written_chunks_append,
        written_chunks_notify, written_chunks, h2]
    refine ⟨?_, hw, by rw [hw, himage]⟩
    simp [ota_post_handler, hp, hres, ota_finish, hend, hboot]

/-- C1, an instance: 600 bytes in two chunks of 300 after a timeout. -/
theorem ota_commits_image_witness :
    (ota_post_handler env_two_chunks).outcome = .returned ESP_OK ∧
    written_chunks (ota_post_handler env_two_chunks).trace
      = chunks_of env_two_chunks.recvs ∧
    (written_chunks (ota_post_handler env_two_chunks).trace).flatten
      = List.replicate 300 0 ++ List.replicate 300 0 :=
  ota_commits_image env_two_chunks part_app 1 (List.replicate 300 0 ++ List.replicate 300 0)
    (by decide)
    (by
      intro r hr
      simp only [env_two_chunks, List.mem_cons, List.mem_singleton, List.not_mem_nil,
        or_false] at hr
      rcases hr with rfl | rfl | rfl
      · exact Or.inl rfl
      · exact Or.inr ⟨_, rfl, by rw [List.length_replicate]; decide,
          by rw [List.length_replicate]; decide⟩
      · exact Or.inr ⟨_, rfl, by rw [List.length_replicate]; decide,
          by rw [List.length_replicate]; decide⟩)
    (by simp only [env_two_chunks, chunks_of, List.flatten_cons, List.flatten_nil,
      List.append_nil])
    (by simp only [List.length_append, List.length_replicate, env_two_chunks])
    (by
      intro c hc
      simp only [env_two_chunks, chunks_of, List.head?_cons, Option.some.injEq] at hc
      subst hc
      rw [List.length_replicate]
      decide)
    rfl (fun _ _ => rfl) rfl rfl

/-- C1 as stated fails: a 600-byte body delivered in one-byte chunks, with
begin, every write, finalize and the boot-target call ready to succeed, is
rejected at the first chunk; nothing is written and the handler returns
`ESP_FAIL`. -/
theorem ota_one_byte_chunks_rejected :
    env_one_byte_chunks.recvs = (List.replicate 600 [0]).map RecvResult.data ∧
    (List.replicate 600 [(0 : Byte)]).flatten.length = env_one_byte_chunks.content_len ∧
    (∀ c ∈ List.replicate 600 [(0 : Byte)], 0 < c.length ∧ c.length ≤ OTA_BUFFSIZE) ∧
    env_one_byte_chunks.begin_result = some 1 ∧
    (∀ i bs, env_one_byte_chunks.write_ok i bs = true) ∧
    env_one_byte_chunks.end_ok = true ∧ env_one_byte_chunks.set_boot_ok = true ∧
    (ota_post_handler env_one_byte_chunks).outcome = .returned ESP_FAIL ∧
    written_chunks (ota_post_handler env_one_byte_chunks).trace = [] := by
  refine ⟨?_, ?_, ?_, rfl, fun _ _ => rfl, rfl, rfl, by decide, by decide⟩
  · simp only [env_one_byte_chunks, List.map_replicate]
  · simp only [List.length_flatten, List.map_replicate, List.sum_replicate, List.length_cons,
      List.length_nil, env_one_byte_chunks, env_two_chunks]
    rfl
  · intro c hc
    rw [List.eq_of_mem_replicate hc]
    decide


theorem ota_loop_short_first_chunk (env : OtaEnv) (p : esp_partition_t) (bs : List Byte)
    (rest : List RecvResult) (hne : 0 < bs.length) (hshort : bs.length < env.header_size)
    (pre : List RecvResult) :
    ∀ st : LoopState, st.image_header_was_checked = false →
      st.binary_file_length < env.content_len →
      (∀ r ∈ pre, ∀ cs, r = RecvResult.data cs → cs = []) →
      (ota_loop env p (pre ++ .data bs :: rest) st).2 = none ∧
      (∀ c ∈ (ota_loop env p (pre ++ .data bs :: rest) st).1,
        c.is_begin = false ∧ c.is_write = false ∧ c.is_end = false ∧ c.is_set_boot = false) ∧
      (env.cb = true →
        Call.event OTA_EVENT_FAILED ∈ (ota_loop env p (pre ++ .data bs :: rest) st).1) := by
  induction pre with
  | nil =>
    intro st hck hlt _
    have hwant : 0 < recv_size env st := by
      simp only [recv_size, OTA_BUFFSIZE]
      omega
    have hcs : 0 < (bs.take (recv_size env st)).length := by
      simp only [List.length_take]
      omega
    have hle : (bs.take (recv_size env st)).length ≤ env.header_size := by
      simp only [List.length_take]
      omega
    have hnot : ¬ env.header_size < (bs.take (recv_size env st)).length := by omega
    simp only [List.nil_append, ota_loop, hlt, ↓reduceIte, ota_loop_body, httpd_req_recv]
    generalize bs.take (recv_size env st) = cs at hcs hnot ⊢
    cases hcb : env.cb <;>
      simp [hcs, hck, hnot, ota_fail, notify, Call.is_begin, Call.is_write, Call.is_end,
        Call.is_set_boot]
  | cons r pre' ih =>
    intro st hck hlt hpre
    have hpre' : ∀ r ∈ pre', ∀ cs, r = RecvResult.data cs → cs = [] :=
      fun r hr => hpre r (by simp [hr])
    obtain ⟨h1, h2, h3⟩ := ih st hck hlt hpre'
    cases r with
    | timeout =>
      cases hcb : env.cb <;>
        simp_all [ota_loop, ota_loop_body, httpd_req_recv, notify,
          Call.is_begin, Call.is_write, Call.is_end, Call.is_set_boot]
    | error =>
      cases hcb : env.cb <;>
        simp [ota_loop, hlt, ota_loop_body, httpd_req_recv, abort_if_checked, hck, ota_fail,
          notify, hcb, Call.is_begin, Call.is_write, Call.is_end, Call.is_set_boot]
    | data cs =>
      have : cs = [] := hpre (.data cs) (by simp) cs rfl
      subst this
      cases hcb : env.cb <;>
        simp [ota_loop, hlt, ota_loop_body, httpd_req_recv, abort_if_checked, hck, ota_fail,
          notify, hcb, Call.is_begin, Call.is_write, Call.is_end, Call.is_set_boot]

/-- C3: when the first non-empty chunk of the stream (no non-empty chunk is
read before it) is shorter than the header size, `ota_post_handler` calls
none of `esp_ota_begin`, `esp_ota_write`, `esp_ota_end` and
`esp_ota_set_boot_partition`; with the update partition present it returns
`ESP_FAIL`, and it emits `Failed` to a registered observer. -/
theorem short_first_chunk_fails (env : OtaEnv) (pre : List RecvResult) (bs : List Byte)
    (rest : List RecvResult)
    (hrecvs : env.recvs = pre ++ .data bs :: rest)
    (hpre : ∀ r ∈ pre, ∀ cs, r = RecvResult.data cs → cs = [])
    (hne : 0 < bs.length) (hshort : bs.length < env.header_size)
    (hlen : 0 < env.content_len) :
    (∀ c ∈ (ota_post_handler env).trace,
      c.is_begin = false ∧ c.is_write = false ∧ c.is_end = false ∧ c.is_set_boot = false) ∧
    (∀ p, esp_partition_find_first env.table ESP_PARTITION_TYPE_APP
        ESP_PARTITION_SUBTYPE_APP_OTA_0 none = some p →
      (ota_post_handler env).outcome = .returned ESP_FAIL ∧
      (env.cb = true → Call.event OTA_EVENT_FAILED ∈ (ota_post_handler env).trace)) := by
  cases hp : esp_partition_find_first env.table ESP_PARTITION_TYPE_APP
      ESP_PARTITION_SUBTYPE_APP_OTA_0 none with
  | none =>
    refine ⟨?_, by simp⟩
    cases hcb : env.cb <;>
      simp [ota_post_handler, hp, notify, hcb, Call.is_begin, Call.is_write, Call.is_end,
        Call.is_set_boot]
  | some p =>
    obtain ⟨h1, h2, h3⟩ := ota_loop_short_first_chunk env p bs rest hne hshort pre ota_init rfl
      (by simpa [ota_init] using hlen) hpre
    rw [← hrecvs] at h1 h2 h3
    rcases hres : ota_loop env p env.recvs ota_init with ⟨cs, o⟩
    rw [hres] at h1 h2 h3
    simp only at h1 h2 h3
    subst h1
    have htrace : (ota_post_handler env).trace = notify env.cb OTA_EVENT_BEGIN ++ cs := by
      simp [ota_post_handler, hp, hres]
    refine ⟨?_, ?_⟩
    · intro c hc
      rw [htrace, List.mem_append, mem_notify_iff] at hc
      rcases hc with ⟨_, rfl⟩ | hc
      · simp [Call.is_begin, Call.is_write, Call.is_end, Call.is_set_boot]
      · exact h2 c hc
    · intro q hq
      refine ⟨by simp [ota_post_handler, hp, hres], fun hcb => ?_⟩
      rw [htrace]
      exact List.mem_append_right _ (h3 hcb)

/-- C3, an instance: a first chunk of 100 bytes against a header of 288. -/
theorem short_first_chunk_fails_witness :
    (∀ c ∈ (ota_post_handler env_short_first_chunk).trace,
      c.is_begin = false ∧ c.is_write = false ∧ c.is_end = false ∧ c.is_set_boot = false) ∧
    (∀ p, esp_partition_find_first env_short_first_chunk.table ESP_PARTITION_TYPE_APP
        ESP_PARTITION_SUBTYPE_APP_OTA_0 none = some p →
      (ota_post_handler env_short_first_chunk).outcome = .returned ESP_FAIL ∧
      (env_short_first_chunk.cb = true →
        Call.event OTA_EVENT_FAILED ∈ (ota_post_handler env_short_first_chunk).trace)) :=
  short_first_chunk_fails env_short_first_chunk [.timeout] (List.replicate 100 0)
    [.data (List.replicate 500 0)] rfl (by simp)
    (by rw [List.length_replicate]; decide) (by rw [List.length_replicate]; decide) (by decide)


theorem write_results_append (a b : List Call) :
    write_results (a ++ b) = write_results a ++ write_results b := by
  induction a with
  | nil => rfl
  | cons c t ih => cases c <;> simp [write_results, ih]

theorem write_results_notify (cb : Bool) (e : Nat) : write_results (notify cb e) = [] := by
  cases cb <;> simp [notify, write_results]

theorem mem_write_results (b : List Call) (ok : Bool) :
    ok ∈ write_results b ↔ ∃ h bs, Call.esp_ota_write h bs ok ∈ b := by
  induction b with
  | nil => simp [write_results]
  | cons c t ih =>
    cases c <;> simp [write_results, ih]
    rename_i h bs ok'
    constructor
    · rintro (rfl | ⟨h', bs', hm⟩)
      · exact ⟨h, bs, Or.inl ⟨rfl, rfl, rfl⟩⟩
      · exact ⟨h', bs', Or.inr hm⟩
    · rintro ⟨h', bs', (⟨_, _, rfl⟩ | hm)⟩
      · exact Or.inl rfl
      · exact Or.inr ⟨h', bs', hm⟩

theorem body_write_results (p : esp_partition_t) (o : Bool) (b : List Call)
    (hb : body_ok p o b = true) : ∀ ok ∈ write_results b, ok = true := by
  intro ok hok
  obtain ⟨h, bs, hm⟩ := (mem_write_results b ok).1 hok
  have := body_ok_benign p b o hb _ hm
  cases ok
  · simp [Call.benign] at this
  · rfl

theorem benign_not_abort (c : Call) (h : c.benign = true) : c.is_abort = false := by
  cases c <;> simp_all [Call.benign, Call.is_abort]

theorem benign_not_end (c : Call) (h : c.benign = true) : c.is_end = false := by
  cases c <;> simp_all [Call.benign, Call.is_end]

theorem countP_notify_abort (cb : Bool) (e : Nat) :
    List.countP Call.is_abort (notify cb e) = 0 := by
  cases cb <;> simp [notify, Call.is_abort]

theorem countP_notify_end (cb : Bool) (e : Nat) :
    List.countP Call.is_end (notify cb e) = 0 := by
  cases cb <;> simp [notify, Call.is_end]

/-- C4: if the `k`-th call to `esp_ota_write` (counting from 1) returns an
error, then all earlier write calls succeeded, no write call follows it,
`esp_ota_abort` is called exactly once in the run, `esp_ota_end` is not
called, `Failed` is emitted to a registered observer and the handler returns
`ESP_FAIL`. -/
theorem write_failure_aborts_once (env : OtaEnv) (k : Nat) (hk : 1 ≤ k)
    (hfail : (write_results (ota_post_handler env).trace)[k - 1]? = some false) :
    (∀ j, j < k - 1 → (write_results (ota_post_handler env).trace)[j]? = some true) ∧
    (write_results (ota_post_handler env).trace).length = k ∧
    List.countP Call.is_abort (ota_post_handler env).trace = 1 ∧
    List.countP Call.is_end (ota_post_handler env).trace = 0 ∧
    (env.cb = true → Call.event OTA_EVENT_FAILED ∈ (ota_post_handler env).trace) ∧
    (ota_post_handler env).outcome = .returned ESP_FAIL := by
  have hno : ∀ l : List Bool, (∀ ok ∈ l, ok = true) → l[k - 1]? = some false → False := by
    intro l hl hget
    have := hl _ (List.getElem?_mem hget)
    cases this
  rcases ota_post_handler_shape env with ⟨_, hrun⟩ | ⟨p, body, _, hb, ⟨tail, ht, hrun⟩ | ⟨st, hrun⟩⟩
  · exfalso
    rw [hrun] at hfail
    simp [write_results_notify] at hfail
  · have hbody := body_write_results p false body hb
    rw [hrun] at hfail ⊢
    simp only [write_results_append, write_results_notify, List.nil_append] at hfail ⊢
    cases ht with
    | write_failed h bs ho =>
      have htail : write_results ([Call.esp_ota_write h bs false, Call.esp_ota_abort h]
          ++ ota_fail env.cb .HTTPD_500) = [false] := by
        cases hcb : env.cb <;> simp [ota_fail, notify, hcb, write_results]
      rw [htail] at hfail ⊢
      have hidx : k - 1 = (write_results body).length := by
        rcases Nat.lt_trichotomy (k - 1) (write_results body).length with hlt | heq | hgt
        · rw [List.getElem?_append_left hlt] at hfail
          exact absurd hfail (fun hget => hno _ hbody hget)
        · exact heq
        · rw [List.getElem?_append_right (by omega)] at hfail
          have : k - 1 - (write_results body).length = (k - 1 - (write_results body).length - 1) + 1 := by
            omega
          rw [this] at hfail
          simp at hfail
      refine ⟨?_, ?_, ?_, ?_, ?_, trivial⟩
      · intro j hj
        rw [List.getElem?_append_left (by omega)]
        have hjl : j < (write_results body).length := by omega
        rw [List.getElem?_eq_getElem hjl]
        exact congrArg some (hbody _ (List.getElem_mem hjl))
      · simp only [List.length_append, List.length_singleton]
        omega
      · have h0 := body_countP_zero Call.is_abort benign_not_abort p false body hb
        cases hcb : env.cb <;>
          simp [List.countP_append, countP_notify_abort, h0, ota_fail, notify, hcb,
            List.countP_cons, Call.is_abort]
      · have h0 := body_countP_zero Call.is_end benign_not_end p false body hb
        cases hcb : env.cb <;>
          simp [List.countP_append, countP_notify_end, h0, ota_fail, notify, hcb,
            List.countP_cons, Call.is_end]
      · intro hcb
        simp [ota_fail, notify, hcb]
    | _ =>
      exfalso
      cases hcb : env.cb <;> cases hbg : has_begun body <;>
        simp [ota_fail, notify, hcb, hbg, write_results] at hfail <;>
        exact hno _ hbody hfail
  · exfalso
    rw [hrun] at hfail
    have hfin : write_results (ota_finish env p st).1 = [] := by
      cases hend : env.end_ok <;> cases hboot : env.set_boot_ok <;> cases hcb : env.cb <;>
        simp [ota_finish, hend, hboot, hcb, ota_fail, notify, write_results]
    simp only [write_results_append, write_results_notify, List.nil_append, hfin,
      List.append_nil] at hfail
    exact hno _ (body_write_results p false body hb) hfail

set_option maxRecDepth 100000 in
/-- C4, an instance: the second of three writes fails. -/
theorem write_failure_aborts_once_witness :
    (∀ j, j < 2 - 1 →
      (write_results (ota_post_handler env_second_write_fails).trace)[j]? = some true) ∧
    (write_results (ota_post_handler env_second_write_fails).trace).length = 2 ∧
    List.countP Call.is_abort (ota_post_handler env_second_write_fails).trace = 1 ∧
    List.countP Call.is_end (ota_post_handler env_second_write_fails).trace = 0 ∧
    (env_second_write_fails.cb = true →
      Call.event OTA_EVENT_FAILED ∈ (ota_post_handler env_second_write_fails).trace) ∧
    (ota_post_handler env_second_write_fails).outcome = .returned ESP_FAIL :=
  write_failure_aborts_once env_second_write_fails 2 (by decide) (by decide)


theorem benign_not_failed_read (c : Call) (h : c.benign = true) : c.is_failed_read = false := by
  cases c with
  | httpd_req_recv w r =>
    cases r with
    | data bs => cases bs <;> simp_all [Call.benign, Call.is_failed_read]
    | _ => simp_all [Call.benign, Call.is_failed_read]
  | _ => simp_all [Call.benign, Call.is_failed_read]

theorem benign_not_failed_event (c : Call) (h : c.benign = true) :
    c.is_failed_event = false := by
  cases c <;> simp_all [Call.benign, Call.is_failed_event, OTA_EVENT_IDLE, OTA_EVENT_FAILED]

theorem has_begun_of_mem (b : List Call) (q : esp_partition_t) (h : Nat)
    (hm : Call.esp_ota_begin q (some h) ∈ b) : has_begun b = true :=
  (has_begun_iff b).2 ⟨q, h, hm⟩

theorem read_failure_core (env : OtaEnv) (p : esp_partition_t) (body : List Call)
    (hb : body_ok p false body = true) (x : Call) (lg : LogSite) (h : Nat)
    (tr pre post : List Call) (y : Call) (hy : y.is_failed_read = true)
    (hrun : tr = notify env.cb OTA_EVENT_BEGIN ++ body ++ ([x, Call.esp_log_error lg]
      ++ (if has_begun body then [Call.esp_ota_abort h] else []) ++ ota_fail env.cb .HTTPD_400))
    (htrace : tr = pre ++ y :: post) :
    List.countP Call.is_failed_event tr = (if env.cb then 1 else 0) ∧
    List.countP Call.is_end tr = 0 ∧
    List.countP Call.is_set_boot tr = 0 ∧
    ((∃ h bs, Call.esp_ota_write h bs true ∈ pre) → List.countP Call.is_abort tr = 1) ∧
    ((∃ q h, Call.esp_ota_begin q (some h) ∈ pre) → List.countP Call.is_abort tr = 1) ∧
    ((∀ q h, Call.esp_ota_begin q (some h) ∉ pre) → List.countP Call.is_abort tr = 0) := by
  have hA : ∀ a ∈ notify env.cb OTA_EVENT_BEGIN ++ body, ¬ (a.is_failed_read = true) := by
    intro a ha
    simp only [List.mem_append, mem_notify_iff] at ha
    rcases ha with ⟨_, rfl⟩ | ha
    · simp [Call.is_failed_read]
    · simp [benign_not_failed_read a (body_ok_benign p body false hb a ha)]
  have hC : ∀ c ∈ [Call.esp_log_error lg]
      ++ (if has_begun body then [Call.esp_ota_abort h] else []) ++ ota_fail env.cb .HTTPD_400,
      ¬ (c.is_failed_read = true) := by
    cases has_begun body <;> cases env.cb <;> simp [ota_fail, notify, Call.is_failed_read]
  have heq : (notify env.cb OTA_EVENT_BEGIN ++ body) ++ x :: ([Call.esp_log_error lg]
      ++ (if has_begun body then [Call.esp_ota_abort h] else []) ++ ota_fail env.cb .HTTPD_400)
      = pre ++ y :: post := by
    rw [← htrace, hrun]
    simp
  obtain ⟨hpre, hyx, _⟩ := split_unique (fun c => c.is_failed_read = true) _ _ x pre post y
    hA hC hy heq
  subst hyx
  obtain ⟨w, r, rfl⟩ : ∃ w r, y = Call.httpd_req_recv w r := by
    cases y <;> simp [Call.is_failed_read] at hy
    exact ⟨_, _, rfl⟩
  have hb_event := body_countP_zero Call.is_failed_event benign_not_failed_event p false body hb
  have hb_end := body_countP_zero Call.is_end benign_not_end p false body hb
  have hb_boot := body_countP_zero Call.is_set_boot benign_not_set_boot p false body hb
  have hb_abort := body_countP_zero Call.is_abort benign_not_abort p false body hb
  have habort : List.countP Call.is_abort tr = if has_begun body then 1 else 0 := by
    rw [hrun]
    cases has_begun body <;> cases env.cb <;>
      simp [List.countP_append, List.countP_cons, hb_abort, ota_fail, notify,
        Call.is_abort]
  have hbegun : (∃ q h, Call.esp_ota_begin q (some h) ∈ pre) → has_begun body = true := by
    rintro ⟨q, h', hm⟩
    rw [hpre, List.mem_append, mem_notify_iff] at hm
    rcases hm with ⟨_, hm⟩ | hm
    · cases hm
    · exact has_begun_of_mem body q h' hm
  refine ⟨?_, ?_, ?_, ?_, ?_, ?_⟩
  · rw [hrun]
    cases has_begun body <;> cases env.cb <;>
      simp [List.countP_append, List.countP_cons, hb_event, ota_fail, notify,
        Call.is_failed_event, OTA_EVENT_BEGIN, OTA_EVENT_FAILED]
  · rw [hrun]
    cases has_begun body <;> cases env.cb <;>
      simp [List.countP_append, List.countP_cons, hb_end, ota_fail, notify,
        Call.is_end]
  · rw [hrun]
    cases has_begun body <;> cases env.cb <;>
      simp [List.countP_append, List.countP_cons, hb_boot, ota_fail, notify,
        Call.is_set_boot]
  · rintro ⟨h', bs, hm⟩
    rw [hpre, List.mem_append, mem_notify_iff] at hm
    rcases hm with ⟨_, hm⟩ | hm
    · cases hm
    · have := body_ok_write_begun p body false hb h' bs true hm
      simp only [Bool.false_or] at this
      simp [habort, this]
  · intro hex
    simp [habort, hbegun hex]
  · intro hnone
    have : has_begun body = false := by
      cases hbg : has_begun body
      · rfl
      · exfalso
        obtain ⟨q, h', hm⟩ := (has_begun_iff body).1 hbg
        exact hnone q h' (by rw [hpre]; exact List.mem_append_right _ hm)
    simp [habort, this]

/-- C5: when a read of the run returns an error other than a timeout, or
returns no byte (only asked while fewer than `content_len` bytes were
consumed), `ota_post_handler` returns `ESP_FAIL`, emits `Failed` exactly once
to a registered observer and calls neither `esp_ota_end` nor
`esp_ota_set_boot_partition`; it calls `esp_ota_abort` exactly once if a
write session was opened before that read (in particular if bytes were
written), and not at all if none was. -/
theorem read_failure_aborts (env : OtaEnv) (pre : List Call) (want : Nat) (res : RecvResult)
    (post : List Call)
    (htrace : (ota_post_handler env).trace = pre ++ Call.httpd_req_recv want res :: post)
    (hres : res = .error ∨ res = .data []) :
    (ota_post_handler env).outcome = .returned ESP_FAIL ∧
    List.countP Call.is_failed_event (ota_post_handler env).trace = (if env.cb then 1 else 0) ∧
    List.countP Call.is_end (ota_post_handler env).trace = 0 ∧
    List.countP Call.is_set_boot (ota_post_handler env).trace = 0 ∧
    ((∃ h bs, Call.esp_ota_write h bs true ∈ pre) →
      List.countP Call.is_abort (ota_post_handler env).trace = 1) ∧
    ((∃ q h, Call.esp_ota_begin q (some h) ∈ pre) →
      List.countP Call.is_abort (ota_post_handler env).trace = 1) ∧
    ((∀ q h, Call.esp_ota_begin q (some h) ∉ pre) →
      List.countP Call.is_abort (ota_post_handler env).trace = 0) := by
  have hP : (Call.httpd_req_recv want res).is_failed_read = true := by
    rcases hres with rfl | rfl <;> rfl
  have hmem : Call.httpd_req_recv want res ∈ (ota_post_handler env).trace := by
    rw [htrace]
    simp
  rcases ota_post_handler_shape env with ⟨_, hrun⟩ | ⟨p, body, _, hb, ⟨tail, ht, hrun⟩ | ⟨st, hrun⟩⟩
  · exfalso
    rw [hrun] at hmem
    simp [mem_notify_iff] at hmem
  · have hout : (ota_post_handler env).outcome = .returned ESP_FAIL := by rw [hrun]
    have htr : (ota_post_handler env).trace
        = notify env.cb OTA_EVENT_BEGIN ++ body ++ tail := by rw [hrun]
    cases ht with
    | read_error w h =>
      exact ⟨hout, read_failure_core env p body hb _ _ h _ pre post _ hP htr htrace⟩
    | closed w h =>
      exact ⟨hout, read_failure_core env p body hb _ _ h _ pre post _ hP htr htrace⟩
    | header_too_small h ho =>
      exfalso
      rw [htr] at hmem
      simp only [List.mem_append, mem_notify_iff] at hmem
      rcases hmem with (⟨_, h⟩ | h) | h
      · cases h
      · have := benign_not_failed_read _ (body_ok_benign p body false hb _ h)
        rw [hP] at this
        cases this
      · cases hcb : env.cb <;> simp [ota_fail, notify, hcb] at h
    | begin_failed ho =>
      exfalso
      rw [htr] at hmem
      simp only [List.mem_append, mem_notify_iff] at hmem
      rcases hmem with (⟨_, h⟩ | h) | h
      · cases h
      · have := benign_not_failed_read _ (body_ok_benign p body false hb _ h)
        rw [hP] at this
        cases this
      · cases hcb : env.cb <;> simp [ota_fail, notify, hcb] at h
    | write_failed h' bs ho =>
      exfalso
      rw [htr] at hmem
      simp only [List.mem_append, mem_notify_iff] at hmem
      rcases hmem with (⟨_, h⟩ | h) | h
      · cases h
      · have := benign_not_failed_read _ (body_ok_benign p body false hb _ h)
        rw [hP] at this
        cases this
      · cases hcb : env.cb <;> simp [ota_fail, notify, hcb] at h
  · exfalso
    rw [hrun] at hmem
    simp only [List.mem_append, mem_notify_iff] at hmem
    rcases hmem with (⟨_, h⟩ | h) | h
    · cases h
    · have := benign_not_failed_read _ (body_ok_benign p body false hb _ h)
      rw [hP] at this
      cases this
    · have hfin : ∀ d ∈ (ota_finish env p st).1, d.is_failed_read = false := by
        cases hend : env.end_ok <;> cases hboot : env.set_boot_ok <;> cases hcb : env.cb <;>
          simp [ota_finish, hend, hboot, hcb, ota_fail, notify, Call.is_failed_read]
      have := hfin _ h
      rw [hP] at this
      cases this

theorem env_read_error_trace :
    (ota_post_handler env_read_error).trace
      = read_error_pre ++ Call.httpd_req_recv 1024 .error :: read_error_post := by
  set_option maxRecDepth 100000 in decide

/-- C5, an instance: a socket error after two chunks were written. -/
theorem read_failure_aborts_witness :
    (ota_post_handler env_read_error).outcome = .returned ESP_FAIL ∧
    List.countP Call.is_failed_event (ota_post_handler env_read_error).trace
      = (if env_read_error.cb then 1 else 0) ∧
    List.countP Call.is_end (ota_post_handler env_read_error).trace = 0 ∧
    List.countP Call.is_set_boot (ota_post_handler env_read_error).trace = 0 ∧
    ((∃ h bs, Call.esp_ota_write h bs true ∈ read_error_pre) →
      List.countP Call.is_abort (ota_post_handler env_read_error).trace = 1) ∧
    ((∃ q h, Call.esp_ota_begin q (some h) ∈ read_error_pre) →
      List.countP Call.is_abort (ota_post_handler env_read_error).trace = 1) ∧
    ((∀ q h, Call.esp_ota_begin q (some h) ∉ read_error_pre) →
      List.countP Call.is_abort (ota_post_handler env_read_error).trace = 0) :=
  read_failure_aborts env_read_error read_error_pre 1024 .error read_error_post
    env_read_error_trace (Or.inl rfl)


/-- Every run of the streaming loop consists of passes that went through,
followed by nothing (normal exit or memory fault) or by the failed send, its
log line and the release of the mapping. -/
theorem coredump_loop_shape (env : CoredumpEnv) (mem : List Byte) (size : Nat) :
    ∀ n data_read, size - data_read = n →
      ∃ body, (∀ c ∈ body, c.is_streamed = true) ∧
        (((coredump_loop env mem size data_read).2 = none ∧
            (coredump_loop env mem size data_read).1 = body) ∨
         ((coredump_loop env mem size data_read).2 = some .fault ∧
            (coredump_loop env mem size data_read).1 = body) ∨
         (∃ bs, (coredump_loop env mem size data_read).2 = some (.returned ESP_FAIL) ∧
            (coredump_loop env mem size data_read).1 = body ++
              [Call.httpd_resp_send_chunk bs false, Call.esp_log_error .http_write_error,
                Call.spi_flash_munmap])) := by
  intro n
  induction n using Nat.strong_induction_on with
  | _ n ih =>
    intro data_read hn
    rw [coredump_loop]
    by_cases hlt : data_read < size
    · by_cases hpos : 0 < coredump_chunk_size size data_read
      · by_cases hsend : env.send_ok data_read = true
        · obtain ⟨body, hbody, hcases⟩ :=
            ih (size - (data_read + (coredump_chunk_size size data_read).toNat)) (by omega)
              (data_read + (coredump_chunk_size size data_read).toNat) rfl
          refine ⟨[Call.httpd_resp_send_chunk ((mem.drop data_read).take
            (coredump_chunk_size size data_read).toNat) true] ++ notify env.cb OTA_EVENT_IDLE
              ++ body, ?_, ?_⟩
          · intro c hc
            simp only [List.mem_append, List.mem_singleton, mem_notify_iff] at hc
            rcases hc with (rfl | ⟨_, rfl⟩) | hc
            · rfl
            · rfl
            · exact hbody c hc
          · simp only [hlt, hpos, hsend, ↓reduceIte]
            rcases hcases with ⟨h1, h2⟩ | ⟨h1, h2⟩ | ⟨bs, h1, h2⟩
            · exact Or.inl ⟨h1, by rw [h2]⟩
            · exact Or.inr (Or.inl ⟨h1, by rw [h2]⟩)
            · exact Or.inr (Or.inr ⟨bs, h1, by rw [h2]; simp⟩)
        · refine ⟨[], by simp, Or.inr (Or.inr ⟨(mem.drop data_read).take
            (coredump_chunk_size size data_read).toNat, ?_, ?_⟩)⟩ <;>
            simp [hlt, hpos, hsend]
      · exact ⟨[], by simp, Or.inr (Or.inl (by simp [hlt, hpos]))⟩
    · exact ⟨[], by simp, Or.inl (by simp [hlt])⟩

/-- Every run of `coredump_get_handler` has one of five shapes. -/
theorem coredump_get_handler_shape (env : CoredumpEnv) :
    (esp_partition_find_first env.table ESP_PARTITION_TYPE_DATA
        ESP_PARTITION_SUBTYPE_ANY (some "coredump") = none ∧
      coredump_get_handler env = ⟨notify env.cb OTA_EVENT_IDLE ++
        [Call.esp_log_error .coredump_not_found, Call.httpd_resp_set_status .HTTPD_500,
          Call.httpd_resp_send], .returned ESP_FAIL⟩) ∨
    ∃ p, esp_partition_find_first env.table ESP_PARTITION_TYPE_DATA
        ESP_PARTITION_SUBTYPE_ANY (some "coredump") = some p ∧
      ((env.mmap_result = none ∧
        coredump_get_handler env = ⟨notify env.cb OTA_EVENT_IDLE ++
          [Call.esp_partition_mmap p false, Call.esp_log_error .mmap_failed,
            Call.httpd_resp_set_status .HTTPD_500, Call.httpd_resp_send], .returned ESP_FAIL⟩) ∨
       ∃ mem body, env.mmap_result = some mem ∧ (∀ c ∈ body, c.is_streamed = true) ∧
        (((coredump_loop env mem p.size 0).2 = none ∧
          coredump_get_handler env = ⟨notify env.cb OTA_EVENT_IDLE ++
            [Call.esp_partition_mmap p true, Call.httpd_resp_set_status .HTTPD_200,
              Call.httpd_resp_set_type] ++ body ++
            [Call.httpd_resp_send_chunk [] (env.send_ok p.size), Call.spi_flash_munmap],
            .returned ESP_OK⟩) ∨
         ((coredump_loop env mem p.size 0).2 = some .fault ∧
          coredump_get_handler env = ⟨notify env.cb OTA_EVENT_IDLE ++
            [Call.esp_partition_mmap p true, Call.httpd_resp_set_status .HTTPD_200,
              Call.httpd_resp_set_type] ++ body, .fault⟩) ∨
         (∃ bs, coredump_get_handler env = ⟨notify env.cb OTA_EVENT_IDLE ++
            [Call.esp_partition_mmap p true, Call.httpd_resp_set_status .HTTPD_200,
              Call.httpd_resp_set_type] ++ body ++
            [Call.httpd_resp_send_chunk bs false, Call.esp_log_error .http_write_error,
              Call.spi_flash_munmap], .returned ESP_FAIL⟩))) := by
  cases hp : esp_partition_find_first env.table ESP_PARTITION_TYPE_DATA
      ESP_PARTITION_SUBTYPE_ANY (some "coredump") with
  | none => exact Or.inl ⟨rfl, by simp [coredump_get_handler, hp]⟩
  | some p =>
    refine Or.inr ⟨p, rfl, ?_⟩
    cases hm : env.mmap_result with
    | none => exact Or.inl ⟨rfl, by simp [coredump_get_handler, hp, hm]⟩
    | some mem =>
      right
      obtain ⟨body, hbody, hcases⟩ := coredump_loop_shape env mem p.size _ 0 rfl
      refine ⟨mem, body, rfl, hbody, ?_⟩
      rcases hres : coredump_loop env mem p.size 0 with ⟨t, o⟩
      rw [hres] at hcases
      simp only at hcases
      rcases hcases with ⟨h1, h2⟩ | ⟨h1, h2⟩ | ⟨bs, h1, h2⟩
      · subst h1 h2
        exact Or.inl ⟨rfl, by simp [coredump_get_handler, hp, hm, hres]⟩
      · subst h1 h2
        exact Or.inr (Or.inl ⟨rfl, by simp [coredump_get_handler, hp, hm, hres]⟩)
      · subst h1 h2
        exact Or.inr (Or.inr ⟨bs, by simp [coredump_get_handler, hp, hm, hres]⟩)

theorem streamed_not_failed_event (c : Call) (h : c.is_streamed = true) :
    c ≠ Call.event OTA_EVENT_FAILED := by
  rintro rfl
  simp [Call.is_streamed, OTA_EVENT_FAILED, OTA_EVENT_IDLE] at h

/-- C6 (as amended): with an observer registered, `ota_post_handler` returns
`ESP_FAIL` exactly when it has emitted `Failed`, and `reboot_post_handler`
returns `ESP_FAIL` only if it has emitted `Failed`; `coredump_get_handler`
never emits `Failed`, its failure paths only return `ESP_FAIL`. -/
theorem failure_is_notified :
    (∀ env : OtaEnv, env.cb = true →
      ((ota_post_handler env).outcome = .returned ESP_FAIL ↔
        Call.event OTA_EVENT_FAILED ∈ (ota_post_handler env).trace)) ∧
    (∀ (ev : Nat) (env : RebootEnv), env.cb = true →
      (reboot_post_handler ev env).outcome = .returned ESP_FAIL →
      Call.event OTA_EVENT_FAILED ∈ (reboot_post_handler ev env).trace) ∧
    (∀ env : CoredumpEnv, Call.event OTA_EVENT_FAILED ∉ (coredump_get_handler env).trace) := by
  refine ⟨?_, ?_, ?_⟩
  · intro env hcb
    have hbody : ∀ (p : esp_partition_t) (body : List Call), body_ok p false body = true →
        Call.event OTA_EVENT_FAILED ∉ body := by
      intro p body hb hmem
      have := body_ok_benign p body false hb _ hmem
      simp [Call.benign, OTA_EVENT_FAILED, OTA_EVENT_IDLE] at this
    rcases ota_post_handler_shape env with ⟨_, hrun⟩ | ⟨p, body, _, hb, ⟨tail, ht, hrun⟩ | ⟨st, hrun⟩⟩
    · simp [hrun, notify, hcb, OTA_EVENT_BEGIN, OTA_EVENT_FAILED]
    · have : Call.event OTA_EVENT_FAILED ∈ tail := by
        cases ht <;> simp [ota_fail, notify, hcb]
      simp [hrun, this]
    · have : Call.event 3 ∉ body := hbody p body hb
      cases hend : env.end_ok <;> cases hboot : env.set_boot_ok <;>
        simp [hrun, ota_finish, hend, hboot, ota_fail, notify, hcb, this, ESP_OK, ESP_FAIL,
          OTA_EVENT_BEGIN, OTA_EVENT_FAILED, OTA_EVENT_IDLE, OTA_EVENT_SUCCESS]
  · intro ev env hcb hfail
    unfold reboot_post_handler at hfail ⊢
    cases hp : esp_partition_find_first env.table ESP_PARTITION_TYPE_APP
        ESP_PARTITION_SUBTYPE_APP_OTA_0 none with
    | none => simp [hp] at hfail
    | some p =>
      cases hboot : env.set_boot_ok with
      | true => simp [hp, hboot, ESP_OK, ESP_FAIL] at hfail
      | false => simp [hp, hboot, ota_fail, notify, hcb]
  · intro env hmem
    rcases coredump_get_handler_shape env with ⟨_, hrun⟩ | ⟨p, _, ⟨_, hrun⟩ |
      ⟨mem, body, _, hbody, ⟨_, hrun⟩ | ⟨_, hrun⟩ | ⟨bs, hrun⟩⟩⟩ <;>
      rw [hrun] at hmem <;>
      simp only [List.mem_append, mem_notify_iff, List.mem_cons, List.mem_singleton,
        List.not_mem_nil, or_false] at hmem
    · rcases hmem with ⟨_, h⟩ | h | h | h <;> simp [OTA_EVENT_FAILED, OTA_EVENT_IDLE] at h
    · rcases hmem with ⟨_, h⟩ | h | h | h | h <;> simp [OTA_EVENT_FAILED, OTA_EVENT_IDLE] at h
    · rcases hmem with ((⟨_, h⟩ | h | h | h) | h) | h | h
      · simp [OTA_EVENT_FAILED, OTA_EVENT_IDLE] at h
      · cases h
      · cases h
      · cases h
      · exact streamed_not_failed_event _ (hbody _ h) rfl
      · cases h
      · cases h
    · rcases hmem with (⟨_, h⟩ | h | h | h) | h
      · simp [OTA_EVENT_FAILED, OTA_EVENT_IDLE] at h
      · cases h
      · cases h
      · cases h
      · exact streamed_not_failed_event _ (hbody _ h) rfl
    · rcases hmem with ((⟨_, h⟩ | h | h | h) | h) | h | h | h
      · simp [OTA_EVENT_FAILED, OTA_EVENT_IDLE] at h
      · cases h
      · cases h
      · cases h
      · exact streamed_not_failed_event _ (hbody _ h) rfl
      · cases h
      · cases h
      · cases h

set_option maxRecDepth 100000 in
/-- C6, an instance: a failed `esp_ota_end` is notified. -/
theorem failure_is_notified_witness :
    Call.event OTA_EVENT_FAILED ∈ (ota_post_handler env_end_fails).trace :=
  (failure_is_notified.1 env_end_fails rfl).1 (by decide)

/-- C6 as stated fails for the readback handler: with an observer registered
and no coredump partition, `coredump_get_handler` returns `ESP_FAIL` and has
emitted the `Idle` event only. -/
theorem coredump_failure_not_notified :
    env_no_coredump.cb = true ∧
    (coredump_get_handler env_no_coredump).outcome = .returned ESP_FAIL ∧
    (coredump_get_handler env_no_coredump).trace =
      [Call.event OTA_EVENT_IDLE, Call.esp_log_error .coredump_not_found,
        Call.httpd_resp_set_status .HTTPD_500, Call.httpd_resp_send] ∧
    Call.event OTA_EVENT_FAILED ∉ (coredump_get_handler env_no_coredump).trace := by
  decide

/-- C7, what the code does: with `content_len = 0` the loop is skipped and
the handler goes on to `esp_ota_end` with the handle 0 that no
`esp_ota_begin` opened; it never calls `esp_ota_begin` or `esp_ota_write`,
fails (with `Failed` and without `esp_ota_set_boot_partition`) only if that
`esp_ota_end` call fails, and reports success if it and the boot-target call
succeed. -/
theorem zero_length_calls_end (env : OtaEnv) (p : esp_partition_t)
    (hp : esp_partition_find_first env.table ESP_PARTITION_TYPE_APP
      ESP_PARTITION_SUBTYPE_APP_OTA_0 none = some p)
    (hlen : env.content_len = 0) :
    (ota_post_handler env).trace
      = notify env.cb OTA_EVENT_BEGIN ++ (ota_finish env p ota_init).1 ∧
    Call.esp_ota_end 0 env.end_ok ∈ (ota_post_handler env).trace ∧
    (∀ c ∈ (ota_post_handler env).trace, c.is_begin = false ∧ c.is_write = false) ∧
    (env.end_ok = false →
      (ota_post_handler env).outcome = .returned ESP_FAIL ∧
      List.countP Call.is_set_boot (ota_post_handler env).trace = 0 ∧
      (env.cb = true → Call.event OTA_EVENT_FAILED ∈ (ota_post_handler env).trace)) ∧
    (env.end_ok = true → env.set_boot_ok = true →
      (ota_post_handler env).outcome = .returned ESP_OK ∧
      Call.esp_ota_set_boot_partition p true ∈ (ota_post_handler env).trace) := by
  have hloop : ota_loop env p env.recvs ota_init = ([], some ota_init) := by
    cases env.recvs <;> simp [ota_loop, ota_init, hlen]
  have hrun : ota_post_handler env = ⟨notify env.cb OTA_EVENT_BEGIN
      ++ (ota_finish env p ota_init).1, .returned (ota_finish env p ota_init).2⟩ := by
    simp [ota_post_handler, hp, hloop]
  rw [hrun]
  cases hend : env.end_ok <;> cases hboot : env.set_boot_ok <;> cases hcb : env.cb <;>
    simp [ota_finish, hend, hboot, hcb, notify, ota_fail,
      ota_init, Call.is_begin, Call.is_write, Call.is_set_boot, ESP_OK, ESP_FAIL]

/-- C7, an instance: the run on an empty body, `esp_ota_end` refusing the
handle 0. -/
theorem zero_length_calls_end_witness :
    (ota_post_handler env_zero_length).trace =
      [Call.event OTA_EVENT_BEGIN, Call.event OTA_EVENT_IDLE, Call.esp_ota_end 0 false,
        Call.esp_log_error .end_failed, Call.httpd_resp_set_status .HTTPD_400,
        Call.httpd_resp_send, Call.event OTA_EVENT_FAILED] :=
  (zero_length_calls_end env_zero_length part_app (by decide) rfl).1.trans (by decide)


theorem find_first_app_ota_0 (table : List esp_partition_t) (q : esp_partition_t)
    (h : esp_partition_find_first table ESP_PARTITION_TYPE_APP
      ESP_PARTITION_SUBTYPE_APP_OTA_0 none = some q) :
    q.type = ESP_PARTITION_TYPE_APP ∧ q.subtype = ESP_PARTITION_SUBTYPE_APP_OTA_0 := by
  have := List.find?_some h
  simpa [ESP_PARTITION_SUBTYPE_APP_OTA_0, ESP_PARTITION_SUBTYPE_ANY] using this

/-- C8 (as amended): the partition `ota_post_handler` passes to
`esp_ota_begin` and to `esp_ota_set_boot_partition` is always the first
Application-class partition of subtype `ota_0` in the table, whatever
partition is running; so it differs from the running partition whenever the
running partition is not of subtype `ota_0`. -/
theorem update_target_is_first_ota_0 (env : OtaEnv) (q : esp_partition_t)
    (hq : (∃ r, Call.esp_ota_begin q r ∈ (ota_post_handler env).trace) ∨
      (∃ ok, Call.esp_ota_set_boot_partition q ok ∈ (ota_post_handler env).trace)) :
    esp_partition_find_first env.table ESP_PARTITION_TYPE_APP
      ESP_PARTITION_SUBTYPE_APP_OTA_0 none = some q ∧
    q.type = ESP_PARTITION_TYPE_APP ∧ q.subtype = ESP_PARTITION_SUBTYPE_APP_OTA_0 ∧
    (env.running.subtype ≠ ESP_PARTITION_SUBTYPE_APP_OTA_0 → q ≠ env.running) := by
  have key : esp_partition_find_first env.table ESP_PARTITION_TYPE_APP
      ESP_PARTITION_SUBTYPE_APP_OTA_0 none = some q := by
    rcases ota_post_handler_shape env with ⟨_, hrun⟩ | ⟨p, body, hp, hb, ⟨tail, ht, hrun⟩ | ⟨st, hrun⟩⟩
    · exfalso
      rw [hrun] at hq
      rcases hq with ⟨r, hm⟩ | ⟨ok, hm⟩ <;> simp [mem_notify_iff] at hm
    · rw [hrun] at hq
      have hqp : q = p := by
        rcases hq with ⟨r, hm⟩ | ⟨ok, hm⟩
        · simp only [List.mem_append, mem_notify_iff] at hm
          rcases hm with (⟨_, hm⟩ | hm) | hm
          · cases hm
          · exact body_ok_begin_partition p body false hb q r hm
          · cases ht <;> cases hbg : has_begun body <;> cases hcb : env.cb <;>
              simp [ota_fail, notify, hcb, hbg] at hm <;> exact hm.1
        · exfalso
          simp only [List.mem_append, mem_notify_iff] at hm
          rcases hm with (⟨_, hm⟩ | hm) | hm
          · cases hm
          · have := benign_not_set_boot _ (body_ok_benign p body false hb _ hm)
            simp [Call.is_set_boot] at this
          · cases ht <;> cases hbg : has_begun body <;> cases hcb : env.cb <;>
              simp [ota_fail, notify, hcb, hbg] at hm
      rw [hqp]
      exact hp
    · rw [hrun] at hq
      have hqp : q = p := by
        rcases hq with ⟨r, hm⟩ | ⟨ok, hm⟩
        · simp only [List.mem_append, mem_notify_iff] at hm
          rcases hm with (⟨_, hm⟩ | hm) | hm
          · cases hm
          · exact body_ok_begin_partition p body false hb q r hm
          · exfalso
            cases hend : env.end_ok <;> cases hboot : env.set_boot_ok <;>
              cases hcb : env.cb <;>
              simp [ota_finish, hend, hboot, hcb, ota_fail, notify] at hm
        · simp only [List.mem_append, mem_notify_iff] at hm
          rcases hm with (⟨_, hm⟩ | hm) | hm
          · cases hm
          · have := benign_not_set_boot _ (body_ok_benign p body false hb _ hm)
            simp [Call.is_set_boot] at this
          · cases hend : env.end_ok <;> cases hboot : env.set_boot_ok <;>
              cases hcb : env.cb <;>
              simp [ota_finish, hend, hboot, hcb, ota_fail, notify] at hm <;> exact hm.1
      rw [hqp]
      exact hp
  obtain ⟨h1, h2⟩ := find_first_app_ota_0 env.table q key
  refine ⟨key, h1, h2, ?_⟩
  intro hne heq
  rw [← heq] at hne
  exact hne h2

set_option maxRecDepth 100000 in
/-- C8, an instance: running from `ota_1`, the update goes to `ota_0`. -/
theorem update_target_is_first_ota_0_witness :
    esp_partition_find_first env_two_chunks.table ESP_PARTITION_TYPE_APP
      ESP_PARTITION_SUBTYPE_APP_OTA_0 none = some part_app ∧
    part_app.type = ESP_PARTITION_TYPE_APP ∧
    part_app.subtype = ESP_PARTITION_SUBTYPE_APP_OTA_0 ∧
    (env_two_chunks.running.subtype ≠ ESP_PARTITION_SUBTYPE_APP_OTA_0 →
      part_app ≠ env_two_chunks.running) :=
  update_target_is_first_ota_0 env_two_chunks part_app (Or.inl ⟨some 1, by decide⟩)

set_option maxRecDepth 100000 in
/-- C8 as stated fails: when the device runs from the slot `ota_0`, the
partition `ota_post_handler` passes to `esp_ota_begin` is the running
partition. -/
theorem update_target_can_be_running :
    esp_partition_find_first env_running_is_target.table ESP_PARTITION_TYPE_APP
      ESP_PARTITION_SUBTYPE_APP_OTA_0 none = some env_running_is_target.running ∧
    Call.esp_ota_begin env_running_is_target.running none
      ∈ (ota_post_handler env_running_is_target).trace := by
  decide


theorem sent_chunks_append (a b : List Call) :
    sent_chunks (a ++ b) = sent_chunks a ++ sent_chunks b := by
  induction a with
  | nil => rfl
  | cons c t ih => cases c <;> simp [sent_chunks, ih]

theorem sent_chunks_notify (cb : Bool) (e : Nat) : sent_chunks (notify cb e) = [] := by
  cases cb <;> simp [notify, sent_chunks]

/-- Below `2 ^ 31` the conversion to `ssize_t` loses nothing: the chunk length
is the smaller of what is left and `OTA_BUFFSIZE`. -/
theorem coredump_chunk_size_eq (size data_read : Nat) (hsize : size < 2 ^ 31)
    (hlt : data_read < size) :
    0 < coredump_chunk_size size data_read ∧
    (coredump_chunk_size size data_read).toNat = min (size - data_read) OTA_BUFFSIZE := by
  have hmod : (size - data_read) % 2 ^ 32 = size - data_read :=
    Nat.mod_eq_of_lt (by omega)
  have hlt31 : size - data_read < 2 ^ 31 := by omega
  simp only [coredump_chunk_size, to_ssize_t, hmod, hlt31, ↓reduceIte, OTA_BUFFSIZE]
  split <;> omega

theorem coredump_loop_all_sent (env : CoredumpEnv) (mem : List Byte) (size : Nat)
    (hsize : size < 2 ^ 31) (hlen : mem.length = size) (hsend : ∀ off, env.send_ok off = true) :
    ∀ n data_read, size - data_read = n →
      (coredump_loop env mem size data_read).2 = none ∧
      (sent_chunks (coredump_loop env mem size data_read).1).flatten = mem.drop data_read ∧
      (∀ c ∈ sent_chunks (coredump_loop env mem size data_read).1, c.length ≤ OTA_BUFFSIZE) ∧
      (∀ c ∈ (sent_chunks (coredump_loop env mem size data_read).1).dropLast,
        c.length = OTA_BUFFSIZE) := by
  intro n
  induction n using Nat.strong_induction_on with
  | _ n ih =>
    intro data_read hn
    by_cases hlt : data_read < size
    · obtain ⟨hpos, hk⟩ := coredump_chunk_size_eq size data_read hsize hlt
      obtain ⟨h1, h2, h3, h4⟩ :=
        ih (size - (data_read + (coredump_chunk_size size data_read).toNat))
          (by simp only [OTA_BUFFSIZE] at hk; omega)
          (data_read + (coredump_chunk_size size data_read).toNat) rfl
      rw [coredump_loop]
      simp only [hlt, hpos, hsend, ↓reduceIte]
      generalize hkdef : (coredump_chunk_size size data_read).toNat = k at *
      generalize hrec : coredump_loop env mem size (data_read + k) = rec at *
      have hchunk : ((mem.drop data_read).take k).length = k := by
        simp only [List.length_take, List.length_drop, OTA_BUFFSIZE] at hk ⊢
        omega
      have hsc : sent_chunks ([Call.httpd_resp_send_chunk ((mem.drop data_read).take k) true]
          ++ notify env.cb OTA_EVENT_IDLE ++ rec.1)
          = (mem.drop data_read).take k :: sent_chunks rec.1 := by
        simp [sent_chunks_append, sent_chunks_notify, sent_chunks]
      simp only [hsc, List.flatten_cons, h2]
      refine ⟨h1, ?_, ?_, ?_⟩
      · rw [← List.drop_drop]
        exact List.take_append_drop k (mem.drop data_read)
      · intro c hc
        rcases List.mem_cons.1 hc with rfl | hc
        · rw [hchunk, hk]
          exact Nat.min_le_right _ _
        · exact h3 c hc
      · intro c hc
        by_cases hmore : data_read + k < size
        · cases hs : sent_chunks rec.1 with
          | nil => simp [hs] at hc
          | cons d ds =>
            rw [hs] at hc h4
            simp only [List.dropLast_cons₂, List.mem_cons] at hc
            rcases hc with rfl | hc
            · rw [hchunk, hk]
              simp only [OTA_BUFFSIZE] at hk ⊢
              omega
            · exact h4 c hc
        · have hnil : rec.1 = [] := by
            rw [← hrec, coredump_loop]
            simp [hmore]
          simp [hnil, sent_chunks] at hc
    · rw [coredump_loop]
      have hdrop : mem.drop data_read = [] := List.drop_eq_nil_of_le (by omega)
      simp [hlt, sent_chunks, hdrop]

theorem coredump_streams_core (env : CoredumpEnv) (p : esp_partition_t) (mem : List Byte)
    (hp : esp_partition_find_first env.table ESP_PARTITION_TYPE_DATA
      ESP_PARTITION_SUBTYPE_ANY (some "coredump") = some p)
    (hm : env.mmap_result = some mem) (hlen : mem.length = p.size)
    (hsize : p.size < 2 ^ 31) (hsend : ∀ off, env.send_ok off = true) :
    (coredump_get_handler env).outcome = .returned ESP_OK ∧
    ∃ cs, sent_chunks (coredump_get_handler env).trace = cs ++ [[]] ∧ cs.flatten = mem ∧
      (∀ c ∈ cs, c.length ≤ OTA_BUFFSIZE) ∧ (∀ c ∈ cs.dropLast, c.length = OTA_BUFFSIZE) := by
  obtain ⟨h1, h2, h3, h4⟩ := coredump_loop_all_sent env mem p.size hsize hlen hsend _ 0 rfl
  rcases hres : coredump_loop env mem p.size 0 with ⟨t, o⟩
  rw [hres] at h1 h2 h3 h4
  simp only at h1 h2 h3 h4
  subst h1
  refine ⟨by simp [coredump_get_handler, hp, hm, hres], sent_chunks t, ?_, by simpa using h2,
    h3, h4⟩
  simp [coredump_get_handler, hp, hm, hres, sent_chunks_append, sent_chunks_notify, sent_chunks]

/-- C9: for a coredump region whose mapping succeeds and whose chunk sends all
succeed, `coredump_get_handler` returns `ESP_OK` after a finite sequence of
`httpd_resp_send_chunk` calls: chunks of at most `OTA_BUFFSIZE` bytes, all but
possibly the last of exactly `OTA_BUFFSIZE` bytes, whose concatenation is the
mapped region, followed by the empty chunk that ends the response; any other
such invocation on the same region sends the same bytes. A mapping that
succeeds provides the `size` bytes of the region inside the data address
window of the ESP32, which is far smaller than `2 ^ 31` bytes: this is the
hypothesis `hsize`, under which the `ssize_t` variable `chunk_size` holds
every remaining length. -/
theorem coredump_streams_region (env : CoredumpEnv) (p : esp_partition_t) (mem : List Byte)
    (hp : esp_partition_find_first env.table ESP_PARTITION_TYPE_DATA
      ESP_PARTITION_SUBTYPE_ANY (some "coredump") = some p)
    (hm : env.mmap_result = some mem) (hlen : mem.length = p.size)
    (hsize : p.size < 2 ^ 31) (hsend : ∀ off, env.send_ok off = true) :
    (coredump_get_handler env).outcome = .returned ESP_OK ∧
    (∃ cs, sent_chunks (coredump_get_handler env).trace = cs ++ [[]] ∧ cs.flatten = mem ∧
      (∀ c ∈ cs, c.length ≤ OTA_BUFFSIZE) ∧ (∀ c ∈ cs.dropLast, c.length = OTA_BUFFSIZE)) ∧
    (∀ env' : CoredumpEnv,
      esp_partition_find_first env'.table ESP_PARTITION_TYPE_DATA
        ESP_PARTITION_SUBTYPE_ANY (some "coredump") = some p →
      env'.mmap_result = some mem → (∀ off, env'.send_ok off = true) →
      (sent_chunks (coredump_get_handler env').trace).flatten
        = (sent_chunks (coredump_get_handler env).trace).flatten) := by
  obtain ⟨h1, cs, h2, h3, h4, h5⟩ := coredump_streams_core env p mem hp hm hlen hsize hsend
  refine ⟨h1, ⟨cs, h2, h3, h4, h5⟩, ?_⟩
  intro env' hp' hm' hsend'
  obtain ⟨_, cs', h2', h3', _, _⟩ := coredump_streams_core env' p mem hp' hm' hlen hsize hsend'
  rw [h2, h2']
  simp [h3, h3']

theorem small_region_length : small_region.length = part_small_coredump.size := by
  unfold small_region
  rw [List.length_replicate]
  rfl

/-- C9, an instance: a region of 2500 bytes. -/
theorem coredump_streams_region_witness :
    (coredump_get_handler env_small_coredump).outcome = .returned ESP_OK ∧
    (∃ cs, sent_chunks (coredump_get_handler env_small_coredump).trace = cs ++ [[]] ∧
      cs.flatten = small_region ∧
      (∀ c ∈ cs, c.length ≤ OTA_BUFFSIZE) ∧ (∀ c ∈ cs.dropLast, c.length = OTA_BUFFSIZE)) :=
  let h := coredump_streams_region env_small_coredump part_small_coredump small_region
    (by decide) rfl small_region_length (by decide) (fun _ => rfl)
  ⟨h.1, h.2.1⟩

theorem coredump_loop_no_fault (env : CoredumpEnv) (mem : List Byte) (size : Nat)
    (hsize : size < 2 ^ 31) :
    ∀ n data_read, size - data_read = n →
      (coredump_loop env mem size data_read).2 ≠ some .fault := by
  intro n
  induction n using Nat.strong_induction_on with
  | _ n ih =>
    intro data_read hn
    rw [coredump_loop]
    by_cases hlt : data_read < size
    · obtain ⟨hpos, hk⟩ := coredump_chunk_size_eq size data_read hsize hlt
      by_cases hsend : env.send_ok data_read = true
      · simp only [hlt, hpos, hsend, ↓reduceIte]
        exact ih (size - (data_read + (coredump_chunk_size size data_read).toNat))
          (by simp only [OTA_BUFFSIZE] at hk; omega) _ rfl
      · simp [hlt, hpos, hsend]
    · simp [hlt]

theorem streamed_kinds (c : Call) (h : c.is_streamed = true) :
    c.is_munmap = false ∧ c.is_mmap = false ∧ c.is_failed_send = false := by
  cases c with
  | httpd_resp_send_chunk bs ok =>
    cases ok <;> simp_all [Call.is_streamed, Call.is_munmap, Call.is_mmap, Call.is_failed_send]
  | _ => simp_all [Call.is_streamed, Call.is_munmap, Call.is_mmap, Call.is_failed_send]

theorem streamed_countP_zero (P : Call → Bool)
    (hP : ∀ c : Call, c.is_streamed = true → P c = false) (body : List Call)
    (hbody : ∀ c ∈ body, c.is_streamed = true) : List.countP P body = 0 := by
  rw [List.countP_eq_zero]
  intro c hc
  simp [hP c (hbody c hc)]

/-- C10: in every run of `coredump_get_handler`, `spi_flash_munmap` is called
at most once; it is called exactly once when `esp_partition_mmap` succeeded
and the handler returns (after the last chunk or after a failed send), and
never when no mapping succeeded; after a failed send no further chunk is
sent; when the coredump partition does not exist the handler returns
`ESP_FAIL` without calling `esp_partition_mmap`. For a partition smaller than
`2 ^ 31` bytes the handler always returns. -/
theorem mapping_released (env : CoredumpEnv) :
    List.countP Call.is_munmap (coredump_get_handler env).trace ≤ 1 ∧
    ((∃ p, Call.esp_partition_mmap p true ∈ (coredump_get_handler env).trace) →
      (coredump_get_handler env).outcome ≠ .fault →
      List.countP Call.is_munmap (coredump_get_handler env).trace = 1) ∧
    ((∀ p, Call.esp_partition_mmap p true ∉ (coredump_get_handler env).trace) →
      List.countP Call.is_munmap (coredump_get_handler env).trace = 0) ∧
    (∀ pre bs post,
      (coredump_get_handler env).trace = pre ++ Call.httpd_resp_send_chunk bs false :: post →
      ∀ c ∈ post, c.is_send_chunk = false) ∧
    (esp_partition_find_first env.table ESP_PARTITION_TYPE_DATA
        ESP_PARTITION_SUBTYPE_ANY (some "coredump") = none →
      (coredump_get_handler env).outcome = .returned ESP_FAIL ∧
      List.countP Call.is_mmap (coredump_get_handler env).trace = 0) ∧
    (∀ p, esp_partition_find_first env.table ESP_PARTITION_TYPE_DATA
        ESP_PARTITION_SUBTYPE_ANY (some "coredump") = some p → p.size < 2 ^ 31 →
      (coredump_get_handler env).outcome ≠ .fault) := by
  have hnosend : (∀ c ∈ (coredump_get_handler env).trace, c.is_failed_send = false) →
      ∀ pre bs post,
        (coredump_get_handler env).trace = pre ++ Call.httpd_resp_send_chunk bs false :: post →
        ∀ c ∈ post, c.is_send_chunk = false := by
    intro hall pre bs post heq
    have := hall (Call.httpd_resp_send_chunk bs false) (by rw [heq]; simp)
    simp [Call.is_failed_send] at this
  rcases coredump_get_handler_shape env with ⟨hp, hrun⟩ | ⟨p, hp, ⟨hm, hrun⟩ |
    ⟨mem, body, hm, hbody, ⟨hl, hrun⟩ | ⟨hl, hrun⟩ | ⟨bs, hrun⟩⟩⟩
  · have hcount : ∀ P : Call → Bool, P (Call.event OTA_EVENT_IDLE) = false →
        P (Call.esp_log_error .coredump_not_found) = false →
        P (Call.httpd_resp_set_status .HTTPD_500) = false → P Call.httpd_resp_send = false →
        ∀ c ∈ (coredump_get_handler env).trace, P c = false := by
      intro P h1 h2 h3 h4 c hc
      rw [hrun] at hc
      simp only [List.mem_append, mem_notify_iff, List.mem_cons, List.mem_singleton,
        List.not_mem_nil, or_false] at hc
      rcases hc with ⟨_, rfl⟩ | rfl | rfl | rfl <;> assumption
    have h0 : List.countP Call.is_munmap (coredump_get_handler env).trace = 0 := by
      rw [List.countP_eq_zero]
      intro c hc
      simp [hcount Call.is_munmap rfl rfl rfl rfl c hc]
    refine ⟨by omega, ?_, fun _ => h0, hnosend (hcount _ rfl rfl rfl rfl), ?_, ?_⟩
    · rintro ⟨q, hq⟩
      have := hcount Call.is_mmap rfl rfl rfl rfl _ hq
      simp [Call.is_mmap] at this
    · intro _
      refine ⟨by rw [hrun], ?_⟩
      rw [List.countP_eq_zero]
      intro c hc
      simp [hcount Call.is_mmap rfl rfl rfl rfl c hc]
    · intro q hq
      rw [hp] at hq
      cases hq
  · have hmun : List.countP Call.is_munmap (coredump_get_handler env).trace = 0 := by
      cases hcb : env.cb <;> simp [hrun, notify, hcb, Call.is_munmap]
    have hall : ∀ c ∈ (coredump_get_handler env).trace, c.is_failed_send = false := by
      cases hcb : env.cb <;> simp [hrun, notify, hcb, Call.is_failed_send]
    refine ⟨by omega, ?_, fun _ => hmun, hnosend hall, ?_, ?_⟩
    · rintro ⟨q, hq⟩
      exfalso
      cases hcb : env.cb <;> simp [hrun, notify, hcb] at hq
    · intro hnone
      rw [hp] at hnone
      cases hnone
    · intro q _ _
      simp [hrun]
  · have hb_mun := streamed_countP_zero Call.is_munmap (fun c h => (streamed_kinds c h).1)
      body hbody
    have hmun : List.countP Call.is_munmap (coredump_get_handler env).trace = 1 := by
      cases hcb : env.cb <;>
        simp [hrun, notify, hcb, List.countP_append, List.countP_cons, hb_mun, Call.is_munmap]
    refine ⟨by omega, fun _ _ => hmun, ?_, ?_, ?_, ?_⟩
    · intro hno
      exfalso
      exact hno p (by simp [hrun])
    · intro pre bs post heq
      have hA : ∀ a ∈ notify env.cb OTA_EVENT_IDLE ++ [Call.esp_partition_mmap p true,
          Call.httpd_resp_set_status .HTTPD_200, Call.httpd_resp_set_type] ++ body,
          ¬ (a.is_failed_send = true) := by
        intro a ha
        simp only [List.mem_append, mem_notify_iff, List.mem_cons, List.mem_singleton,
          List.not_mem_nil, or_false] at ha
        rcases ha with (⟨_, rfl⟩ | rfl | rfl | rfl) | ha
        · simp [Call.is_failed_send]
        · simp [Call.is_failed_send]
        · simp [Call.is_failed_send]
        · simp [Call.is_failed_send]
        · simp [(streamed_kinds a (hbody a ha)).2.2]
      have hC : ∀ c ∈ [Call.spi_flash_munmap], ¬ (c.is_failed_send = true) := by
        simp [Call.is_failed_send]
      have heq' : (notify env.cb OTA_EVENT_IDLE ++ [Call.esp_partition_mmap p true,
          Call.httpd_resp_set_status .HTTPD_200, Call.httpd_resp_set_type] ++ body)
          ++ Call.httpd_resp_send_chunk [] (env.send_ok p.size) :: [Call.spi_flash_munmap]
          = pre ++ Call.httpd_resp_send_chunk bs false :: post := by
        rw [← heq, hrun]
      obtain ⟨_, _, hpost⟩ := split_unique (fun c => c.is_failed_send = true) _ _ _ pre post
        _ hA hC rfl heq'
      rw [hpost]
      simp [Call.is_send_chunk]
    · intro hnone
      rw [hp] at hnone
      cases hnone
    · intro q _ _
      simp [hrun]
  · have hb_mun := streamed_countP_zero Call.is_munmap (fun c h => (streamed_kinds c h).1)
      body hbody
    have hmun : List.countP Call.is_munmap (coredump_get_handler env).trace = 0 := by
      cases hcb : env.cb <;>
        simp [hrun, notify, hcb, List.countP_append, List.countP_cons, hb_mun, Call.is_munmap]
    have hall : ∀ c ∈ (coredump_get_handler env).trace, c.is_failed_send = false := by
      intro c hc
      rw [hrun] at hc
      simp only [List.mem_append, mem_notify_iff, List.mem_cons, List.mem_singleton,
        List.not_mem_nil, or_false] at hc
      rcases hc with (⟨_, rfl⟩ | rfl | rfl | rfl) | hc
      · rfl
      · rfl
      · rfl
      · rfl
      · exact (streamed_kinds c (hbody c hc)).2.2
    refine ⟨by omega, ?_, fun _ => hmun, hnosend hall, ?_, ?_⟩
    · intro _ hout
      exfalso
      exact hout (by rw [hrun])
    · intro hnone
      rw [hp] at hnone
      cases hnone
    · intro q hq hsize
      exfalso
      rw [hp] at hq
      cases hq
      exact coredump_loop_no_fault env mem p.size hsize _ 0 rfl hl
  · have hb_mun := streamed_countP_zero Call.is_munmap (fun c h => (streamed_kinds c h).1)
      body hbody
    have hmun : List.countP Call.is_munmap (coredump_get_handler env).trace = 1 := by
      cases hcb : env.cb <;>
        simp [hrun, notify, hcb, List.countP_append, List.countP_cons, hb_mun, Call.is_munmap]
    refine ⟨by omega, fun _ _ => hmun, ?_, ?_, ?_, ?_⟩
    · intro hno
      exfalso
      exact hno p (by simp [hrun])
    · intro pre bs' post heq
      have hA : ∀ a ∈ notify env.cb OTA_EVENT_IDLE ++ [Call.esp_partition_mmap p true,
          Call.httpd_resp_set_status .HTTPD_200, Call.httpd_resp_set_type] ++ body,
          ¬ (a.is_failed_send = true) := by
        intro a ha
        simp only [List.mem_append, mem_notify_iff, List.mem_cons, List.mem_singleton,
          List.not_mem_nil, or_false] at ha
        rcases ha with (⟨_, rfl⟩ | rfl | rfl | rfl) | ha
        · simp [Call.is_failed_send]
        · simp [Call.is_failed_send]
        · simp [Call.is_failed_send]
        · simp [Call.is_failed_send]
        · simp [(streamed_kinds a (hbody a ha)).2.2]
      have hC : ∀ c ∈ [Call.esp_log_error .http_write_error, Call.spi_flash_munmap],
          ¬ (c.is_failed_send = true) := by
        simp [Call.is_failed_send]
      have heq' : (notify env.cb OTA_EVENT_IDLE ++ [Call.esp_partition_mmap p true,
          Call.httpd_resp_set_status .HTTPD_200, Call.httpd_resp_set_type] ++ body)
          ++ Call.httpd_resp_send_chunk bs false
            :: [Call.esp_log_error .http_write_error, Call.spi_flash_munmap]
          = pre ++ Call.httpd_resp_send_chunk bs' false :: post := by
        rw [← heq, hrun]
      obtain ⟨_, _, hpost⟩ := split_unique (fun c => c.is_failed_send = true) _ _ _ pre post
        _ hA hC rfl heq'
      rw [hpost]
      simp [Call.is_send_chunk]
    · intro hnone
      rw [hp] at hnone
      cases hnone
    · intro q _ _
      simp [hrun]

theorem coredump_get_handler_of_loop (env : CoredumpEnv) (p : esp_partition_t)
    (mem : List Byte) (t : List Call) (o : Outcome)
    (hp : esp_partition_find_first env.table ESP_PARTITION_TYPE_DATA
      ESP_PARTITION_SUBTYPE_ANY (some "coredump") = some p)
    (hm : env.mmap_result = some mem)
    (hloop : coredump_loop env mem p.size 0 = (t, some o)) :
    coredump_get_handler env = ⟨notify env.cb OTA_EVENT_IDLE ++
      [Call.esp_partition_mmap p true, Call.httpd_resp_set_status .HTTPD_200,
        Call.httpd_resp_set_type] ++ t, o⟩ := by
  simp [coredump_get_handler, hp, hm, hloop]

theorem env_send_fails_trace :
    (coredump_get_handler env_send_fails).trace =
      [Call.event OTA_EVENT_IDLE, Call.esp_partition_mmap part_small_coredump true,
        Call.httpd_resp_set_status .HTTPD_200, Call.httpd_resp_set_type,
        Call.httpd_resp_send_chunk (small_region.take 1024) true, Call.event OTA_EVENT_IDLE]
      ++ Call.httpd_resp_send_chunk ((small_region.drop 1024).take 1024) false
        :: [Call.esp_log_error .http_write_error, Call.spi_flash_munmap] := by
  have hp : esp_partition_find_first env_send_fails.table ESP_PARTITION_TYPE_DATA
      ESP_PARTITION_SUBTYPE_ANY (some "coredump") = some part_small_coredump := by decide
  have hm : env_send_fails.mmap_result = some small_region := rfl
  have hcb : env_send_fails.cb = true := rfl
  have hc0 : coredump_chunk_size part_small_coredump.size 0 = 1024 := by decide
  have hc1 : coredump_chunk_size part_small_coredump.size 1024 = 1024 := by decide
  have hs0 : env_send_fails.send_ok 0 = true := rfl
  have hs1 : env_send_fails.send_ok 1024 = false := rfl
  have hlt0 : 0 < part_small_coredump.size := by decide
  have hlt1 : 1024 < part_small_coredump.size := by decide
  have hloop : coredump_loop env_send_fails small_region part_small_coredump.size 0
      = ([Call.httpd_resp_send_chunk (small_region.take 1024) true, Call.event OTA_EVENT_IDLE,
          Call.httpd_resp_send_chunk ((small_region.drop 1024).take 1024) false,
          Call.esp_log_error .http_write_error, Call.spi_flash_munmap],
        some (.returned ESP_FAIL)) := by
    rw [coredump_loop]
    simp only [hlt0, hc0, hs0, ↓reduceIte]
    rw [coredump_loop]
    simp [hlt1, hc1, hs1, hcb, notify]
  rw [coredump_get_handler_of_loop env_send_fails part_small_coredump small_region _ _ hp hm
    hloop, hcb]
  rfl

/-- C10, an instance: the second send of a readback fails; the mapping is
released once and nothing more is sent. -/
theorem mapping_released_witness :
    List.countP Call.is_munmap (coredump_get_handler env_send_fails).trace = 1 ∧
    ∀ c ∈ [Call.esp_log_error .http_write_error, Call.spi_flash_munmap],
      c.is_send_chunk = false :=
  ⟨(mapping_released env_send_fails).2.1
      ⟨part_small_coredump, by rw [env_send_fails_trace]; simp⟩
      (by
        intro h
        have := (mapping_released env_send_fails).2.2.2.2.2 part_small_coredump (by decide)
          (by decide)
        exact this h),
    (mapping_released env_send_fails).2.2.2.1 _ _ _ env_send_fails_trace⟩


/-- C11, what the code does: `reboot_post_handler` calls
`esp_ota_set_boot_partition` exactly once, on the first Application-class
partition of subtype `ota_0`, and never calls `esp_ota_begin`,
`esp_ota_write`, `esp_ota_end` or `esp_ota_abort`; when that call succeeds
the handler schedules the restart, returns `ESP_OK` and the only event it
emits is the value of `OTA_EVENT_REBOOT`, a macro that `otaserver.h` does not
define: the statement holds for whatever value `ev` the macro is given. -/
theorem reboot_sets_boot_target (ev : Nat) (env : RebootEnv) (p : esp_partition_t)
    (hp : esp_partition_find_first env.table ESP_PARTITION_TYPE_APP
      ESP_PARTITION_SUBTYPE_APP_OTA_0 none = some p) :
    List.countP Call.is_set_boot (reboot_post_handler ev env).trace = 1 ∧
    Call.esp_ota_set_boot_partition p env.set_boot_ok ∈ (reboot_post_handler ev env).trace ∧
    p.type = ESP_PARTITION_TYPE_APP ∧ p.subtype = ESP_PARTITION_SUBTYPE_APP_OTA_0 ∧
    (∀ c ∈ (reboot_post_handler ev env).trace,
      c.is_begin = false ∧ c.is_write = false ∧ c.is_end = false ∧ c.is_abort = false) ∧
    (env.set_boot_ok = true →
      (reboot_post_handler ev env).outcome = .returned ESP_OK ∧
      Call.xTaskCreate_restart ∈ (reboot_post_handler ev env).trace ∧
      events_of (reboot_post_handler ev env).trace = (if env.cb then [ev] else [])) := by
  obtain ⟨h1, h2⟩ := find_first_app_ota_0 env.table p hp
  refine ⟨?_, ?_, h1, h2, ?_, ?_⟩
  · cases hboot : env.set_boot_ok <;> cases hcb : env.cb <;>
      simp [reboot_post_handler, hp, hboot, hcb, ota_fail, notify, Call.is_set_boot]
  · cases hboot : env.set_boot_ok <;> simp [reboot_post_handler, hp, hboot]
  · cases hboot : env.set_boot_ok <;> cases hcb : env.cb <;>
      simp [reboot_post_handler, hp, hboot, hcb, ota_fail, notify, Call.is_begin,
        Call.is_write, Call.is_end, Call.is_abort]
  · intro hboot
    cases hcb : env.cb <;>
      simp [reboot_post_handler, hp, hboot, hcb, notify, events_of]

/-- C11, an instance: a reboot request on the sample partition table, with
the macro given the value 4. -/
theorem reboot_sets_boot_target_witness :
    (reboot_post_handler 4 env_reboot_ok).trace =
      [Call.esp_ota_set_boot_partition part_app true, Call.httpd_resp_set_status .HTTPD_202,
        Call.httpd_resp_send, Call.event 4, Call.xTaskCreate_restart] ∧
    events_of (reboot_post_handler 4 env_reboot_ok).trace = [4] ∧
    4 ∉ [OTA_EVENT_IDLE, OTA_EVENT_BEGIN, OTA_EVENT_SUCCESS, OTA_EVENT_FAILED] :=
  ⟨by decide,
    (reboot_sets_boot_target 4 env_reboot_ok part_app (by decide)).2.2.2.2.2 rfl |>.2.2,
    by decide⟩


/-- Reads that time out leave the state as it is: the loop goes on with the
rest of the stream. -/
theorem ota_loop_timeouts (env : OtaEnv) (p : esp_partition_t) (s : List RecvResult)
    (st : LoopState) (hlt : st.binary_file_length < env.content_len) (k : Nat) :
    ota_loop env p (List.replicate k .timeout ++ s) st =
      ((List.replicate k (notify env.cb OTA_EVENT_IDLE
          ++ [Call.httpd_req_recv (recv_size env st) .timeout])).flatten
        ++ (ota_loop env p s st).1, (ota_loop env p s st).2) := by
  induction k with
  | zero => simp
  | succ k ih =>
    simp only [List.replicate_succ, List.cons_append, List.flatten_cons, List.append_assoc]
    rw [ota_loop]
    simp [hlt, ota_loop_body, httpd_req_recv, ih]

/-- The first chunk, not longer than the header size: lines 209-221. -/
theorem ota_loop_header_rejected (env : OtaEnv) (p : esp_partition_t) (bs : List Byte)
    (rest : List RecvResult) (st : LoopState) (hck : st.image_header_was_checked = false)
    (hpos : 0 < bs.length) (hbuf : bs.length ≤ OTA_BUFFSIZE)
    (hfit : st.binary_file_length + bs.length ≤ env.content_len)
    (hshort : bs.length ≤ env.header_size) :
    ota_loop env p (.data bs :: rest) st =
      (notify env.cb OTA_EVENT_IDLE ++ [Call.httpd_req_recv (recv_size env st) (.data bs),
        Call.esp_log_error .header_too_small, Call.esp_ota_abort st.update_handle]
        ++ ota_fail env.cb .HTTPD_400, none) := by
  have hlt : st.binary_file_length < env.content_len := by omega
  have htake : bs.take (recv_size env st) = bs := by
    apply List.take_of_length_le
    simp only [recv_size]
    omega
  have hnot : ¬ env.header_size < bs.length := by omega
  rw [ota_loop]
  simp [hlt, ota_loop_body, httpd_req_recv, htake, hpos, hck, hnot]

/-- The first chunk, longer than the header size: `esp_ota_begin` is called. -/
theorem ota_loop_header_accepted (env : OtaEnv) (p : esp_partition_t) (bs : List Byte)
    (rest : List RecvResult) (st : LoopState) (hck : st.image_header_was_checked = false)
    (hpos : 0 < bs.length) (hbuf : bs.length ≤ OTA_BUFFSIZE)
    (hfit : st.binary_file_length + bs.length ≤ env.content_len)
    (hlong : env.header_size < bs.length) :
    Call.esp_ota_begin p env.begin_result ∈ (ota_loop env p (.data bs :: rest) st).1 := by
  have hlt : st.binary_file_length < env.content_len := by omega
  have htake : bs.take (recv_size env st) = bs := by
    apply List.take_of_length_le
    simp only [recv_size]
    omega
  rw [ota_loop]
  cases hbr : env.begin_result with
  | none => simp [hlt, ota_loop_body, httpd_req_recv, htake, hpos, hck, hlong, hbr]
  | some h =>
    simp only [hlt, ↓reduceIte, ota_loop_body, httpd_req_recv, htake, hpos, hck, hlong, hbr]
    generalize ota_write_chunk env _ bs = r
    rcases r with ⟨cs, o⟩
    cases o <;> simp

theorem ota_loop_calls_in_trace (env : OtaEnv) (p : esp_partition_t)
    (hp : esp_partition_find_first env.table ESP_PARTITION_TYPE_APP
      ESP_PARTITION_SUBTYPE_APP_OTA_0 none = some p) (c : Call)
    (hc : c ∈ (ota_loop env p env.recvs ota_init).1) : c ∈ (ota_post_handler env).trace := by
  rcases hres : ota_loop env p env.recvs ota_init with ⟨cs, o⟩
  rw [hres] at hc
  cases o <;> simp [ota_post_handler, hp, hres] <;> simp at hc <;> simp [hc]

/-- The run on a stream whose first chunk is not longer than the header
size. -/
theorem ota_post_handler_header_rejected (env : OtaEnv) (p : esp_partition_t) (k : Nat)
    (bs : List Byte) (rest : List RecvResult)
    (hp : esp_partition_find_first env.table ESP_PARTITION_TYPE_APP
      ESP_PARTITION_SUBTYPE_APP_OTA_0 none = some p)
    (hrecvs : env.recvs = List.replicate k .timeout ++ .data bs :: rest)
    (hpos : 0 < bs.length) (hbuf : bs.length ≤ OTA_BUFFSIZE)
    (hfit : bs.length ≤ env.content_len) (hshort : bs.length ≤ env.header_size) :
    ota_post_handler env =
      ⟨notify env.cb OTA_EVENT_BEGIN
        ++ (List.replicate k (notify env.cb OTA_EVENT_IDLE
          ++ [Call.httpd_req_recv (recv_size env ota_init) .timeout])).flatten
        ++ (notify env.cb OTA_EVENT_IDLE ++ [Call.httpd_req_recv (recv_size env ota_init)
          (.data bs), Call.esp_log_error .header_too_small, Call.esp_ota_abort 0]
          ++ ota_fail env.cb .HTTPD_400), .returned ESP_FAIL⟩ := by
  have hlt : ota_init.binary_file_length < env.content_len := by
    simp only [ota_init]
    omega
  have hloop := ota_loop_timeouts env p (.data bs :: rest) ota_init hlt k
  rw [ota_loop_header_rejected env p bs rest ota_init rfl hpos hbuf
    (by simp only [ota_init]; omega) hshort, ← hrecvs] at hloop
  simp only [ota_post_handler, hp, hloop]
  simp [ota_init]

/-- C13, what the code does: the header check compares with `>`: after any
number of timeouts, a first chunk of length `L` (not more than was asked for)
leads to `esp_ota_begin` if `L` is greater than the header size `H`, and to the
header-too-small failure, without any `esp_ota_begin` call, if `L` is at most
`H`, the case `L = H` included. -/
theorem header_check_is_strict (env : OtaEnv) (p : esp_partition_t) (k : Nat)
    (bs : List Byte) (rest : List RecvResult)
    (hp : esp_partition_find_first env.table ESP_PARTITION_TYPE_APP
      ESP_PARTITION_SUBTYPE_APP_OTA_0 none = some p)
    (hrecvs : env.recvs = List.replicate k .timeout ++ .data bs :: rest)
    (hpos : 0 < bs.length) (hbuf : bs.length ≤ OTA_BUFFSIZE)
    (hfit : bs.length ≤ env.content_len) :
    (env.header_size < bs.length →
      Call.esp_ota_begin p env.begin_result ∈ (ota_post_handler env).trace) ∧
    (bs.length ≤ env.header_size →
      (∀ c ∈ (ota_post_handler env).trace, c.is_begin = false) ∧
      Call.esp_log_error .header_too_small ∈ (ota_post_handler env).trace ∧
      (ota_post_handler env).outcome = .returned ESP_FAIL ∧
      (env.cb = true → Call.event OTA_EVENT_FAILED ∈ (ota_post_handler env).trace)) := by
  constructor
  · intro hlong
    apply ota_loop_calls_in_trace env p hp
    have hlt : ota_init.binary_file_length < env.content_len := by
      simp only [ota_init]
      omega
    rw [hrecvs, ota_loop_timeouts env p (.data bs :: rest) ota_init hlt k]
    exact List.mem_append_right _ (ota_loop_header_accepted env p bs rest ota_init rfl hpos hbuf
      (by simp only [ota_init]; omega) hlong)
  · intro hshort
    rw [ota_post_handler_header_rejected env p k bs rest hp hrecvs hpos hbuf hfit hshort]
    refine ⟨?_, by simp, rfl, fun hcb => by simp [ota_fail, notify, hcb]⟩
    intro c hc
    simp only [List.mem_append, mem_notify_iff, List.mem_flatten, List.mem_replicate,
      List.mem_cons, List.mem_singleton, List.not_mem_nil, or_false, ota_fail] at hc
    rcases hc with (⟨_, rfl⟩ | ⟨l, ⟨_, rfl⟩, hl⟩) | (⟨_, rfl⟩ | rfl | rfl | rfl) | (rfl | rfl)
      | ⟨_, rfl⟩
    · rfl
    · simp only [List.mem_append, mem_notify_iff, List.mem_singleton] at hl
      rcases hl with ⟨_, rfl⟩ | rfl <;> rfl
    all_goals rfl

/-- C13, an instance: a first chunk of exactly 288 bytes, the header size, is
rejected. -/
theorem header_check_is_strict_witness :
    (List.replicate 288 (0 : Byte)).length = env_first_chunk_is_header.header_size ∧
    (∀ c ∈ (ota_post_handler env_first_chunk_is_header).trace, c.is_begin = false) ∧
    Call.esp_log_error .header_too_small ∈ (ota_post_handler env_first_chunk_is_header).trace ∧
    (ota_post_handler env_first_chunk_is_header).outcome = .returned ESP_FAIL :=
  have h := (header_check_is_strict env_first_chunk_is_header part_app 0
    (List.replicate 288 0) [.data (List.replicate 312 0)] (by decide) rfl
    (by rw [List.length_replicate]; decide) (by rw [List.length_replicate]; decide)
    (by rw [List.length_replicate]; decide)).2 (by rw [List.length_replicate]; decide)
  ⟨by rw [List.length_replicate]; rfl, h.1, h.2.1, h.2.2.1⟩

/-- C12, what the code does at the two places where it leaves the
write-session protocol: when the first chunk is not longer than the header
size, `ota_post_handler` calls `esp_ota_abort` on the handle 0 although no
`esp_ota_begin` call was made in the run; when `content_len` is 0 it calls
`esp_ota_end` on the handle 0, again without any `esp_ota_begin` call. -/
theorem session_calls_without_begin :
    (∀ (env : OtaEnv) (p : esp_partition_t) (k : Nat) (bs : List Byte)
        (rest : List RecvResult),
      esp_partition_find_first env.table ESP_PARTITION_TYPE_APP
        ESP_PARTITION_SUBTYPE_APP_OTA_0 none = some p →
      env.recvs = List.replicate k .timeout ++ .data bs :: rest →
      0 < bs.length → bs.length ≤ OTA_BUFFSIZE → bs.length ≤ env.content_len →
      bs.length ≤ env.header_size →
      Call.esp_ota_abort 0 ∈ (ota_post_handler env).trace ∧
      ∀ c ∈ (ota_post_handler env).trace, c.is_begin = false) ∧
    (∀ (env : OtaEnv) (p : esp_partition_t),
      esp_partition_find_first env.table ESP_PARTITION_TYPE_APP
        ESP_PARTITION_SUBTYPE_APP_OTA_0 none = some p →
      env.content_len = 0 →
      Call.esp_ota_end 0 env.end_ok ∈ (ota_post_handler env).trace ∧
      ∀ c ∈ (ota_post_handler env).trace, c.is_begin = false) := by
  constructor
  · intro env p k bs rest hp hrecvs hpos hbuf hfit hshort
    rw [ota_post_handler_header_rejected env p k bs rest hp hrecvs hpos hbuf hfit hshort]
    refine ⟨by simp, ?_⟩
    intro c hc
    simp only [List.mem_append, mem_notify_iff, List.mem_flatten, List.mem_replicate,
      List.mem_cons, List.mem_singleton, List.not_mem_nil, or_false, ota_fail] at hc
    rcases hc with (⟨_, rfl⟩ | ⟨l, ⟨_, rfl⟩, hl⟩) | (⟨_, rfl⟩ | rfl | rfl | rfl) | (rfl | rfl)
      | ⟨_, rfl⟩
    · rfl
    · simp only [List.mem_append, mem_notify_iff, List.mem_singleton] at hl
      rcases hl with ⟨_, rfl⟩ | rfl <;> rfl
    all_goals rfl
  · intro env p hp hlen
    have hloop : ota_loop env p env.recvs ota_init = ([], some ota_init) := by
      cases env.recvs <;> simp [ota_loop, ota_init, hlen]
    have hrun : ota_post_handler env = ⟨notify env.cb OTA_EVENT_BEGIN
        ++ (ota_finish env p ota_init).1, .returned (ota_finish env p ota_init).2⟩ := by
      simp [ota_post_handler, hp, hloop]
    rw [hrun]
    cases hend : env.end_ok <;> cases hboot : env.set_boot_ok <;> cases hcb : env.cb <;>
      simp [ota_finish, hend, hboot, hcb, notify, ota_fail, ota_init, Call.is_begin]

/-- C12, an instance: a first chunk of 100 bytes against a header of 288. -/
theorem session_calls_without_begin_witness :
    Call.esp_ota_abort 0 ∈ (ota_post_handler env_short_first_chunk).trace ∧
    ∀ c ∈ (ota_post_handler env_short_first_chunk).trace, c.is_begin = false :=
  session_calls_without_begin.1 env_short_first_chunk part_app 1 (List.replicate 100 0)
    [.data (List.replicate 500 0)] (by decide) rfl
    (by rw [List.length_replicate]; decide) (by rw [List.length_replicate]; decide)
    (by rw [List.length_replicate]; decide) (by rw [List.length_replicate]; decide)


theorem events_of_append (a b : List Call) :
    events_of (a ++ b) = events_of a ++ events_of b := by
  induction a with
  | nil => rfl
  | cons c t ih => cases c <;> simp [events_of, ih]

theorem mem_events_of (b : List Call) (x : Nat) : x ∈ events_of b ↔ Call.event x ∈ b := by
  induction b with
  | nil => simp [events_of]
  | cons c t ih => cases c <;> simp [events_of, ih]

theorem body_events_idle (p : esp_partition_t) (o : Bool) (b : List Call)
    (hb : body_ok p o b = true) : ∀ x ∈ events_of b, x = OTA_EVENT_IDLE := by
  intro x hx
  have := body_ok_benign p b o hb _ ((mem_events_of b x).1 hx)
  simpa [Call.benign] using this

theorem tail_events (p : esp_partition_t) (o : Bool) (t : List Call)
    (ht : FailTail true p o t) :
    events_of t = [OTA_EVENT_FAILED] ∧ Call.xTaskCreate_restart ∉ t ∧
    ∀ q, Call.esp_ota_set_boot_partition q true ∉ t := by
  cases ht <;> cases o <;> simp [ota_fail, notify, events_of]

/-- C14: in every run of `ota_post_handler` that returns, with an observer
registered, the events emitted are `Begin`, then `Idle` events only, then
exactly one terminal event, `Success` or `Failed`, which is the last event of
the run; the terminal event is `Success` exactly when
`esp_ota_set_boot_partition` was called and succeeded, exactly when the
handler returns `ESP_OK`, and exactly when the delayed restart is scheduled. -/
theorem events_begin_then_terminal (env : OtaEnv) (hcb : env.cb = true) (e : Int)
    (hret : (ota_post_handler env).outcome = .returned e) :
    ∃ mid t, events_of (ota_post_handler env).trace = OTA_EVENT_BEGIN :: (mid ++ [t]) ∧
      (∀ x ∈ mid, x = OTA_EVENT_IDLE) ∧
      (t = OTA_EVENT_SUCCESS ∨ t = OTA_EVENT_FAILED) ∧
      (t = OTA_EVENT_SUCCESS ↔
        ∃ q, Call.esp_ota_set_boot_partition q true ∈ (ota_post_handler env).trace) ∧
      (t = OTA_EVENT_SUCCESS ↔ e = ESP_OK) ∧
      (t = OTA_EVENT_SUCCESS ↔ Call.xTaskCreate_restart ∈ (ota_post_handler env).trace) := by
  have hbody_boot : ∀ (p : esp_partition_t) (body : List Call), body_ok p false body = true →
      ∀ q, Call.esp_ota_set_boot_partition q true ∉ body := by
    intro p body hb q hm
    have := body_ok_benign p body false hb _ hm
    simp [Call.benign] at this
  have hbody_restart : ∀ (p : esp_partition_t) (body : List Call),
      body_ok p false body = true → Call.xTaskCreate_restart ∉ body := by
    intro p body hb hm
    have := body_ok_benign p body false hb _ hm
    simp [Call.benign] at this
  rcases ota_post_handler_shape env with ⟨_, hrun⟩ | ⟨p, body, _, hb, ⟨tail, ht, hrun⟩ | ⟨st, hrun⟩⟩
  · rw [hrun] at hret
    cases hret
  · rw [hcb] at ht hrun
    obtain ⟨hev, hnr, hnb⟩ := tail_events p _ tail ht
    rw [hrun] at hret ⊢
    simp only [Outcome.returned.injEq] at hret
    subst hret
    refine ⟨events_of body, OTA_EVENT_FAILED, ?_, body_events_idle p false body hb,
      Or.inr rfl, ?_, ?_, ?_⟩
    · simp [events_of_append, hev, notify, events_of]
    · simp [notify, hnb, hbody_boot p body hb, OTA_EVENT_FAILED, OTA_EVENT_SUCCESS]
    · simp [OTA_EVENT_FAILED, OTA_EVENT_SUCCESS, ESP_OK, ESP_FAIL]
    · simp [notify, hnr, hbody_restart p body hb, OTA_EVENT_FAILED, OTA_EVENT_SUCCESS]
  · rw [hcb] at hrun
    rw [hrun] at hret ⊢
    simp only [Outcome.returned.injEq] at hret
    subst hret
    have hidle := body_events_idle p false body hb
    have hnb := hbody_boot p body hb
    have hnr := hbody_restart p body hb
    cases hend : env.end_ok with
    | false =>
      refine ⟨events_of body ++ [OTA_EVENT_IDLE], OTA_EVENT_FAILED, ?_, ?_, Or.inr rfl,
        ?_, ?_, ?_⟩
      · simp [events_of_append, ota_finish, hend, hcb, ota_fail, notify, events_of]
      · intro x hx
        rcases List.mem_append.1 hx with hx | hx
        · exact hidle x hx
        · simpa using hx
      · simp [ota_finish, hend, hcb, ota_fail, notify, hnb, OTA_EVENT_FAILED,
          OTA_EVENT_SUCCESS]
      · simp [ota_finish, hend, OTA_EVENT_FAILED, OTA_EVENT_SUCCESS, ESP_OK, ESP_FAIL]
      · simp [ota_finish, hend, hcb, ota_fail, notify, hnr, OTA_EVENT_FAILED,
          OTA_EVENT_SUCCESS]
    | true =>
      cases hboot : env.set_boot_ok with
      | false =>
        refine ⟨events_of body ++ [OTA_EVENT_IDLE, OTA_EVENT_IDLE], OTA_EVENT_FAILED, ?_, ?_,
          Or.inr rfl, ?_, ?_, ?_⟩
        · simp [events_of_append, ota_finish, hend, hboot, hcb, ota_fail, notify, events_of]
        · intro x hx
          rcases List.mem_append.1 hx with hx | hx
          · exact hidle x hx
          · simpa using hx
        · simp [ota_finish, hend, hboot, hcb, ota_fail, notify, hnb, OTA_EVENT_FAILED,
            OTA_EVENT_SUCCESS]
        · simp [ota_finish, hend, hboot, OTA_EVENT_FAILED, OTA_EVENT_SUCCESS, ESP_OK,
            ESP_FAIL]
        · simp [ota_finish, hend, hboot, hcb, ota_fail, notify, hnr, OTA_EVENT_FAILED,
            OTA_EVENT_SUCCESS]
      | true =>
        refine ⟨events_of body ++ [OTA_EVENT_IDLE, OTA_EVENT_IDLE], OTA_EVENT_SUCCESS, ?_, ?_,
          Or.inl rfl, ?_, ?_, ?_⟩
        · simp [events_of_append, ota_finish, hend, hboot, hcb, notify, events_of]
        · intro x hx
          rcases List.mem_append.1 hx with hx | hx
          · exact hidle x hx
          · simpa using hx
        · simp [ota_finish, hend, hboot, hcb, notify]
        · simp [ota_finish, hend, hboot]
        · simp [ota_finish, hend, hboot, hcb, notify]

theorem chunks_of_map_data (cs : List (List Byte)) :
    chunks_of (cs.map RecvResult.data) = cs := by
  induction cs with
  | nil => rfl
  | cons c t ih => simp [chunks_of, ih]

/-- A stream of good chunks with every flash operation succeeding ends in
`ESP_OK`. -/
theorem ota_returns_ok (env : OtaEnv) (p : esp_partition_t) (h : Nat)
    (hp : esp_partition_find_first env.table ESP_PARTITION_TYPE_APP
      ESP_PARTITION_SUBTYPE_APP_OTA_0 none = some p)
    (hchunks : ∀ r ∈ env.recvs, r = .timeout ∨
      ∃ bs, r = .data bs ∧ 0 < bs.length ∧ bs.length ≤ OTA_BUFFSIZE)
    (hlen : (chunks_of env.recvs).flatten.length = env.content_len)
    (hhdr : ∀ c, (chunks_of env.recvs).head? = some c → env.header_size < c.length)
    (hbegin : env.begin_result = some h) (hwrite : ∀ i bs, env.write_ok i bs = true)
    (hend : env.end_ok = true) (hboot : env.set_boot_ok = true) :
    (ota_post_handler env).outcome = .returned ESP_OK := by
  obtain ⟨h1, _⟩ := ota_loop_all_ok env p h hbegin hwrite env.recvs ota_init hchunks
    (by simp [ota_init, hlen]) (fun _ => hhdr)
  rcases hres : ota_loop env p env.recvs ota_init with ⟨cs, o⟩
  rw [hres] at h1
  cases o with
  | none => simp at h1
  | some st => simp [ota_post_handler, hp, hres, ota_finish, hend, hboot]

theorem scenario_a_returns_ok :
    (ota_post_handler env_scenario_a).outcome = .returned ESP_OK := by
  have hrecvs : env_scenario_a.recvs = scenario_a_chunks.map .data := rfl
  have hhead : scenario_a_chunks = List.replicate 1024 0
      :: (List.replicate 291 (List.replicate 1024 0) ++ [List.replicate 992 0]) := rfl
  apply ota_returns_ok env_scenario_a part_app 1 (by decide) ?_ ?_ ?_ rfl (fun _ _ => rfl)
    rfl rfl
  · intro r hr
    rw [hrecvs] at hr
    simp only [scenario_a_chunks, List.map_append, List.map_replicate, List.map_cons,
      List.map_nil, List.mem_append, List.mem_replicate, List.mem_singleton] at hr
    rcases hr with ⟨_, rfl⟩ | rfl
    · exact Or.inr ⟨_, rfl, by rw [List.length_replicate]; decide,
        by rw [List.length_replicate]; decide⟩
    · exact Or.inr ⟨_, rfl, by rw [List.length_replicate]; decide,
        by rw [List.length_replicate]; decide⟩
  · rw [hrecvs, chunks_of_map_data]
    simp only [scenario_a_chunks, List.length_flatten, List.map_append, List.map_replicate,
      List.map_cons, List.map_nil, List.length_replicate, List.sum_append, List.sum_replicate,
      List.sum_cons, List.sum_nil]
    rfl
  · intro c hc
    rw [hrecvs, chunks_of_map_data, hhead] at hc
    simp only [List.head?_cons, Option.some.injEq] at hc
    subst hc
    rw [List.length_replicate]
    decide

/-- C14, an instance: scenario A, a body of 300000 bytes with the header in
the first chunk. -/
theorem events_begin_then_terminal_witness :
    ∃ mid t, events_of (ota_post_handler env_scenario_a).trace
        = OTA_EVENT_BEGIN :: (mid ++ [t]) ∧
      (∀ x ∈ mid, x = OTA_EVENT_IDLE) ∧
      (t = OTA_EVENT_SUCCESS ∨ t = OTA_EVENT_FAILED) ∧
      (t = OTA_EVENT_SUCCESS ↔
        ∃ q, Call.esp_ota_set_boot_partition q true ∈ (ota_post_handler env_scenario_a).trace) ∧
      (t = OTA_EVENT_SUCCESS ↔ ESP_OK = ESP_OK) ∧
      (t = OTA_EVENT_SUCCESS ↔
        Call.xTaskCreate_restart ∈ (ota_post_handler env_scenario_a).trace) :=
  events_begin_then_terminal env_scenario_a rfl ESP_OK scenario_a_returns_ok

end OtaServer
